import Mathlib

/-!
Package `cal` of pyspa/covid-19: the record parser and prefecture filter.

A shallow embedding of `src/cal/main.go` and `src/cal/types.go`.

Conventions of the embedding.

* A Go `string` is a Lean `String`.  Every test the program (and the library
  routines it calls) performs on bytes is a test against an ASCII byte, and
  every byte of a multi-byte UTF-8 character is `≥ 0x80`, so testing
  characters gives the same answers as testing bytes.
* A Go multi-value return `(v, err)` is a pair whose second component is an
  `Option` (`none` is `nil`); a pointer result is an `Option` as well.
* A run-time panic is an explicit outcome (`Run.panic`).
* Go `int` is 64 bits wide (`strconv.IntSize = 64`).
* Package-level variables set by `init` (`time.Local`,
  `DefaultCalendarBeginDate`) are passed explicitly as a `Globals` value.
* Library routines (`strconv`, `time`, `encoding/csv`, `fmt`) are modelled
  from their documented behaviour, in namespaces named after the packages.
  The arithmetic of `time.Date` is the library's, in 64-bit words.
* The input of `Print`, an `io.Reader`, is given either as its text
  (`Calendar.PrintText`) or as the sequence of records that the csv reader
  cuts the text into (`Calendar.Print`).  On a text the reader's error names
  the line of the offending record, on a sequence of records its index.
-/

set_option linter.unusedVariables false
set_option maxRecDepth 20000

namespace Cal

/-! ## Outcomes and errors -/

/-- Outcome of running a Go function: it returns a value or it panics. -/
inductive Run (α : Type) where
  | ret (a : α)
  | panic (msg : String)
deriving DecidableEq, Repr

namespace strconv

/-- The two sentinel errors of `strconv`: `ErrSyntax` and `ErrRange`. -/
inductive ErrKind where
  | ErrSyntax
  | ErrRange
deriving DecidableEq, Repr

/-- Record `strconv.NumError`: the failing function, the input, the reason. -/
structure NumError where
  Func : String
  Num : String
  Err : ErrKind
deriving DecidableEq, Repr

/-- Constant `strconv.IntSize` on a 64-bit platform. -/
def IntSize : Nat := 64

/-- The byte test `'0' <= c && c <= '9'`. -/
def isDigit (c : Char) : Bool := decide (48 ≤ c.toNat) && decide (c.toNat ≤ 57)

/-- Largest `uint64`, `1<<64 - 1`. -/
def maxUint64 : Nat := 2 ^ 64 - 1

/-- The digit loop of `ParseUint(s, 10, 64)` with accumulator `n` (a `uint64`):
a non-digit is a syntax error; `n >= cutoff` (the multiplication would
overflow) or a wrapped addition is a range error with value `maxVal`. -/
def ParseUint.loop : List Char → Nat → Nat × Option ErrKind
  | [], n => (n, none)
  | c :: cs, n =>
    if !isDigit c then (0, some .ErrSyntax)
    else
      let d := c.toNat - 48
      if n ≥ maxUint64 / 10 + 1 then (maxUint64, some .ErrRange)
      else
        let n10 := n * 10 % 2 ^ 64
        let n1 := (n10 + d) % 2 ^ 64
        if n1 < n10 ∨ n1 > maxUint64 then (maxUint64, some .ErrRange)
        else ParseUint.loop cs n1

/-- Function `strconv.ParseUint(s, 10, 64)`. -/
def ParseUint (s : String) : Nat × Option NumError :=
  if s = "" then (0, some ⟨"ParseUint", s, .ErrSyntax⟩)
  else
    match ParseUint.loop s.data 0 with
    | (n, none) => (n, none)
    | (n, some k) => (n, some ⟨"ParseUint", s, k⟩)

/-- Function `strconv.ParseInt(s, 10, 0)`: an optional sign, then
`ParseUint`; a syntax error is passed on, anything outside
`[-2^63, 2^63-1]` is a range error with the clamped value. -/
def ParseInt (s : String) : Int × Option NumError :=
  if s = "" then (0, some ⟨"ParseInt", s, .ErrSyntax⟩)
  else
    let s0 := s
    let neg := s.data.head? = some '-'
    let s := if s.data.head? = some '+' ∨ s.data.head? = some '-' then String.mk s.data.tail else s
    match ParseUint s with
    | (_, some ⟨_, _, .ErrSyntax⟩) => (0, some ⟨"ParseInt", s0, .ErrSyntax⟩)
    | (un, _) =>
      let cutoff : Nat := 2 ^ (IntSize - 1)
      if !neg ∧ un ≥ cutoff then ((cutoff : Int) - 1, some ⟨"ParseInt", s0, .ErrRange⟩)
      else if neg ∧ un > cutoff then (-(cutoff : Int), some ⟨"ParseInt", s0, .ErrRange⟩)
      else
        let n : Int := un
        (if neg then -n else n, none)

/-- Function `strconv.Atoi(s)`: "equivalent to `ParseInt(s, 10, 0)`, converted
to type `int`", the error naming `Atoi`.  (Its fast path for short inputs
computes the same result.) -/
def Atoi (s : String) : Int × Option NumError :=
  match ParseInt s with
  | (i64, some nerr) => (i64, some { nerr with Func := "Atoi" })
  | (i64, none) => (i64, none)

/-! ### Decimal numerals, as the specification reads them -/

/-- The number that a string of decimal digits denotes, read after the
digits already accumulated in `n`. -/
def decimalFrom (n : Nat) (ds : List Char) : Nat :=
  ds.foldl (fun n c => n * 10 + (c.toNat - 48)) n

/-- Sign of a numeral: whether it starts with a minus. -/
def hasMinus (s : String) : Bool := s.data.head? = some '-'

/-- The digits of a numeral: the text after an optional leading sign. -/
def digitsOf (s : String) : List Char :=
  if s.data.head? = some '+' ∨ s.data.head? = some '-' then s.data.tail else s.data

/-- The integer that a signed decimal numeral denotes. -/
def intValue (s : String) : Int :=
  if hasMinus s then -(decimalFrom 0 (digitsOf s) : Int) else (decimalFrom 0 (digitsOf s) : Int)

/-- A base-10 integer of type `int`: an optional sign, at least one digit,
only digits, and a value in `[-2^63, 2^63 - 1]`. -/
def isBase10Int (s : String) : Bool :=
  !(digitsOf s).isEmpty && (digitsOf s).all isDigit
    && decide (-(2 ^ 63 : Int) ≤ intValue s) && decide (intValue s < 2 ^ 63)

end strconv

/-! ## Prefectures (`types.go`) -/

/-- Type `Prefecture` of `types.go`: a string type. -/
abbrev Prefecture := String

/-- Constant `HOKKAIDO`. -/
def HOKKAIDO : Prefecture := "北海道"
/-- Constant `TOKYO`. -/
def TOKYO : Prefecture := "東京都"
/-- Constant `OSAKA`. -/
def OSAKA : Prefecture := "大阪府"
/-- Constant `YAMANASHI`. -/
def YAMANASHI : Prefecture := "山梨県"
/-- Constant `UNKNOWN`. -/
def UNKNOWN : Prefecture := "不明"

/-- Function `PrefFromString` of `types.go`: a `switch` on the string. -/
def PrefFromString (s : String) : Prefecture :=
  if s = "北海道" then HOKKAIDO
  else if s = "東京都" then TOKYO
  else if s = "大阪府" then OSAKA
  else if s = "山梨県" then YAMANASHI
  else UNKNOWN

/-! ## Package `time` -/

namespace time

/-- Type `time.Weekday` (an `int`; Sunday is 0). -/
abbrev Weekday := Int
/-- Constant `time.Monday`. -/
def Monday : Weekday := 1

/-- Type `time.Month` (an `int`; January is 1). -/
abbrev Month := Int
/-- Constant `time.March`. -/
def March : Month := 3

/-- A `*time.Location` in the period in which it has a single zone: the
location's name, the zone abbreviation and its offset in seconds east of UTC.
A location made by `time.FixedZone` is of this kind at all times; the zone
database's `Asia/Tokyo` is from its last transition on (8 September 1951, the
end of the last summer time): before that it has `JDT` (1948 to 1951) and
local mean time (before 1888), which this type does not describe. -/
structure Location where
  name : String
  zoneName : String
  zoneOffset : Int
deriving DecidableEq, Repr

/-- Function `time.FixedZone(name, offset)`: the zone is named like the
location. -/
def FixedZone (name : String) (offset : Int) : Location := ⟨name, name, offset⟩

/-- A `time.Time` without monotonic clock reading: seconds since
1970-01-01T00:00:00Z, nanoseconds within the second, and the location. -/
structure Time where
  unix : Int
  nsec : Int
  loc : Location
deriving DecidableEq, Repr

/-- The value of a Go `int` or `int64` expression: the mathematical result
reduced modulo `2^64` into `[-2^63, 2^63)`. -/
def wrapInt64 (x : Int) : Int :=
  (x + 9223372036854775808) % 18446744073709551616 - 9223372036854775808

/-- The value of a Go `uint64` expression: the mathematical result reduced
modulo `2^64` into `[0, 2^64)`. -/
def wrapUint64 (x : Int) : Int := x % 18446744073709551616

/-- Function `norm(hi, lo, base)`: carry `lo` into `hi` until
`0 <= lo < base`; the arithmetic is that of `int`.  Both divisions have a
numerator that is not negative. -/
def norm (hi lo base : Int) : Int × Int :=
  let p : Int × Int :=
    if lo < 0 then
      let n := wrapInt64 (wrapInt64 (wrapInt64 (-lo) - 1) / base + 1)
      (wrapInt64 (hi - n), wrapInt64 (lo + wrapInt64 (n * base)))
    else (hi, lo)
  if p.2 ≥ base then
    let n := p.2 / base
    (wrapInt64 (p.1 + n), wrapInt64 (p.2 - wrapInt64 (n * base)))
  else p

/-- Function `isLeap(year)`. -/
def isLeap (year : Int) : Bool :=
  year % 4 = 0 && (year % 100 ≠ 0 || year % 400 = 0)

/-- Table `daysBefore`: days in a non-leap year before month `m+1`. -/
def daysBefore (m : Int) : Int :=
  [0, 31, 59, 90, 120, 151, 181, 212, 243, 273, 304, 334, 365].getD m.toNat 0

/-- Constant `absoluteZeroYear`: the year of the zero of the absolute
(unsigned) time scale; it is 1 modulo 400. -/
def absoluteZeroYear : Int := -292277022399

/-- Constant `unixToInternal`: seconds from 0001-01-01 to 1970-01-01. -/
def unixToInternal : Int := (1969 * 365 + 1969 / 4 - 1969 / 100 + 1969 / 400) * 86400

/-- Constant `internalToUnix`. -/
def internalToUnix : Int := -unixToInternal

/-- Constant `absoluteToInternal`: seconds from 0001-01-01 back to the
absolute zero, `(absoluteZeroYear - internalYear) * 365.2425 * secondsPerDay`. -/
def absoluteToInternal : Int := (absoluteZeroYear - 1) * 3652425 * 86400 / 10000

/-- Constant `internalToAbsolute`. -/
def internalToAbsolute : Int := -absoluteToInternal

/-- Function `daysSinceEpoch(year)`: days from the absolute zero to 1 January
of `year`, in `uint64` arithmetic. -/
def daysSinceEpoch (year : Int) : Int :=
  let y := wrapUint64 (year - absoluteZeroYear)
  let n := y / 400
  let y := y - 400 * n
  let d := wrapUint64 (146097 * n)
  let n := y / 100
  let y := y - 100 * n
  let d := wrapUint64 (d + 36524 * n)
  let n := y / 4
  let y := y - 4 * n
  let d := wrapUint64 (d + 1461 * n)
  wrapUint64 (d + 365 * y)

/-- Function `time.Date`: out-of-range month, day, hour, min, sec and nsec are
normalised; the civil time is read in `loc`.  The arithmetic is the
library's, in 64-bit words: for a year outside what a `time.Time` can hold it
wraps around. -/
def Date (year : Int) (month : Month) (day hour min sec nsec : Int) (loc : Location) : Time :=
  let m := wrapInt64 (month - 1)
  let ym := norm year m 12
  let year := ym.1
  let month := ym.2 + 1
  let sn := norm sec nsec 1000000000
  let ms := norm min sn.1 60
  let hm := norm hour ms.1 60
  let dh := norm day hm.1 24
  let d := daysSinceEpoch year
  let d := wrapUint64 (d + daysBefore (month - 1))
  let d := if isLeap year ∧ month ≥ March then wrapUint64 (d + 1) else d
  let d := wrapUint64 (d + (dh.1 - 1))
  let abs := wrapUint64 (d * 86400)
  let abs := wrapUint64 (abs + (dh.2 * 3600 + hm.2 * 60 + ms.2))
  let unix := wrapInt64 (wrapInt64 abs + (absoluteToInternal + internalToUnix))
  let unix := if loc.zoneOffset ≠ 0 then wrapInt64 (unix - loc.zoneOffset) else unix
  { unix := unix, nsec := sn.2, loc := loc }

/-- Method `Time.abs`: the local time as seconds on the absolute scale. -/
def Time.abs (t : Time) : Int :=
  wrapUint64 (wrapInt64 (t.unix + t.loc.zoneOffset) + (unixToInternal + internalToAbsolute))

/-- Function `absDate(abs, true)`: year, month and day of the absolute time
`abs`, a `uint64`. -/
def absDate (abs : Int) : Int × Month × Int :=
  let d := abs / 86400
  let n := d / 146097
  let y := 400 * n
  let d := d - 146097 * n
  let n := d / 36524
  let n := n - n / 4
  let y := y + 100 * n
  let d := d - 36524 * n
  let n := d / 1461
  let y := y + 4 * n
  let d := d - 1461 * n
  let n := d / 365
  let n := n - n / 4
  let y := y + n
  let d := d - 365 * n
  let year := wrapInt64 (y + absoluteZeroYear)
  if isLeap year ∧ d = 31 + 29 - 1 then (year, 2, 29)
  else
    let day := if isLeap year ∧ d > 31 + 29 - 1 then d - 1 else d
    let month := day / 31
    let endDay := daysBefore (month + 1)
    if day ≥ endDay then (year, month + 2, day - endDay + 1)
    else (year, month + 1, day - daysBefore month + 1)

/-- Method `Time.Date`: year, month and day in which the time falls, in its
location. -/
def Time.Date (t : Time) : Int × Month × Int := absDate t.abs

/-- Method `Time.Clock`: hour, minute and second within the day, in the
time's location. -/
def Time.Clock (t : Time) : Int × Int × Int :=
  let sec := t.abs % 86400
  (sec / 3600, sec % 3600 / 60, sec % 60)

/-- Function `daysIn(m, year)`: the number of days of month `m`. -/
def daysIn (m : Month) (year : Int) : Int :=
  if m = 2 ∧ isLeap year then 29 else daysBefore m - daysBefore (m - 1)

/-- Function `appendInt(b, x, width)`: the decimal form of `x`, zero-padded
to `width` digits, after a minus sign when `x` is negative. -/
def appendInt (x : Int) (width : Nat) : String :=
  let digits := Nat.repr x.natAbs
  (if x < 0 then "-" else "") ++ String.mk (List.replicate (width - digits.length) '0') ++ digits

/-- The layout element `.999999999`: nothing for a zero fraction, otherwise
a point and the nine-digit fraction without its trailing zeros. -/
def formatNano (nsec : Int) : String :=
  if nsec = 0 then ""
  else
    let ds := (appendInt nsec 9).data
    "." ++ String.mk (ds.reverse.dropWhile (fun c => c = '0')).reverse

/-- Method `Time.String`: `t.Format("2006-01-02 15:04:05.999999999 -0700 MST")`;
a zone without abbreviation is printed as its offset, `-0700`. -/
def Time.String (t : Time) : String :=
  let zone := Int.tdiv t.loc.zoneOffset 60
  let zsign := if zone < 0 then "-" else "+"
  let zabs : Int := zone.natAbs
  appendInt t.Date.1 4 ++ "-" ++ appendInt t.Date.2.1 2 ++ "-" ++ appendInt t.Date.2.2 2 ++ " "
    ++ appendInt t.Clock.1 2 ++ ":" ++ appendInt t.Clock.2.1 2 ++ ":"
    ++ appendInt t.Clock.2.2 2 ++ formatNano t.nsec ++ " "
    ++ zsign ++ appendInt (zabs / 60) 2 ++ appendInt (zabs % 60) 2 ++ " "
    ++ (if t.loc.zoneName ≠ "" then t.loc.zoneName
        else zsign ++ appendInt (zabs / 60) 2 ++ appendInt (zabs % 60) 2)

end time

/-! ## Packages `encoding/csv` and `fmt`, and the `error` interface -/

namespace csv

/-- The sentinel `csv.ErrFieldCount` ("wrong number of fields"); with
`LazyQuotes` set it is the only error the reader itself raises. -/
inductive ErrKind where
  | ErrFieldCount
deriving DecidableEq, Repr

/-- Record `csv.ParseError` of a reader on a stream of records: the position
is kept as the index of the offending record in the stream. -/
structure ParseError where
  Record : Nat
  Err : ErrKind
deriving DecidableEq, Repr

/-- Record `csv.ParseError` of a reader on a text, with the position as the
library reports it: `StartLine` is the line on which the record starts,
`Line` and `Column` are the place of the error; lines and columns are counted
from 1, a line ending at each `\n`. -/
structure ParseErrorAt where
  StartLine : Nat
  Line : Nat
  Column : Nat
  Err : ErrKind
deriving DecidableEq, Repr

end csv

/-- The values of Go's `error` interface that this program can produce. -/
inductive Error where
  | csv (e : csv.ParseError)
  | csvAt (e : csv.ParseErrorAt)
  | errorString (msg : String)
  | num (e : strconv.NumError)
deriving DecidableEq, Repr

namespace fmt

/-- Verb `%d` on an `int`. -/
def formatInt (x : Int) : String :=
  (if x < 0 then "-" else "") ++ Nat.repr x.natAbs

/-- Verb `%v` on a `[]string`: the elements between brackets, separated by
spaces. -/
def formatStrings (xs : List String) : String :=
  "[" ++ " ".intercalate xs ++ "]"

end fmt

namespace csv

/-- A `*csv.Reader`: the three settings the program touches, and the input
`r`.  The input stream is given in one of two forms.  As a `String` it is the
text of the stream, which `ReadAllText` cuts into records character by
character.  As a `List (List String)` it is the sequence of records that the
reader's lexer cuts the text into (fields already unquoted and, under
`TrimLeadingSpace`, stripped of leading white space), which `ReadAll` reads;
the empty stream is the empty sequence.  Read errors of the underlying
transport are outside the model. -/
structure Reader (α : Type) where
  FieldsPerRecord : Int
  LazyQuotes : Bool
  TrimLeadingSpace : Bool
  r : α
deriving DecidableEq, Repr

/-- Function `csv.NewReader`. -/
def NewReader {α : Type} (r : α) : Reader α :=
  { FieldsPerRecord := 0, LazyQuotes := false, TrimLeadingSpace := false, r := r }

/-- The loop of `ReadAll`: read record after record until the end of the
input, appending to `records`.  A positive `FieldsPerRecord` is required of
every record, zero is replaced by the field count of the first record, a
negative value disables the check.  The first error ends the loop and
`nil` is returned with it. -/
def Reader.ReadAll.loop : Int → Nat → List (List String) → List (List String) →
    List (List String) × Option Error
  | _, _, [], records => (records, none)
  | fieldsPerRecord, i, record :: rest, records =>
    if fieldsPerRecord > 0 then
      if (record.length : Int) ≠ fieldsPerRecord then
        ([], some (.csv { Record := i, Err := .ErrFieldCount }))
      else Reader.ReadAll.loop fieldsPerRecord (i + 1) rest (records ++ [record])
    else if fieldsPerRecord = 0 then
      Reader.ReadAll.loop record.length (i + 1) rest (records ++ [record])
    else Reader.ReadAll.loop fieldsPerRecord (i + 1) rest (records ++ [record])

/-- Method `(*csv.Reader).ReadAll`, on a stream of records. -/
def Reader.ReadAll (reader : Reader (List (List String))) : List (List String) × Option Error :=
  Reader.ReadAll.loop reader.FieldsPerRecord 0 reader.r []

end csv

/-! ## The lexer of `encoding/csv`, and package `unicode` -/

namespace unicode

/-- Function `unicode.IsSpace`: the characters with the Unicode property
White_Space. -/
def IsSpace (c : Char) : Bool :=
  decide (c.toNat = 0x09) || decide (c.toNat = 0x0A) || decide (c.toNat = 0x0B)
    || decide (c.toNat = 0x0C) || decide (c.toNat = 0x0D) || decide (c.toNat = 0x20)
    || decide (c.toNat = 0x85) || decide (c.toNat = 0xA0) || decide (c.toNat = 0x1680)
    || (decide (0x2000 ≤ c.toNat) && decide (c.toNat ≤ 0x200A))
    || decide (c.toNat = 0x2028) || decide (c.toNat = 0x2029) || decide (c.toNat = 0x202F)
    || decide (c.toNat = 0x205F) || decide (c.toNat = 0x3000)

end unicode

namespace csv

/-- What `(*Reader).readLine` does to line ends: `\r\n` is read as `\n`, and a
`\r` that ends the input is dropped. -/
def normalizeLineEnds : List Char → List Char
  | [] => []
  | c :: rest =>
    if c = '\r' then
      match rest with
      | [] => []
      | d :: _ => if d = '\n' then normalizeLineEnds rest else c :: normalizeLineEnds rest
    else c :: normalizeLineEnds rest

/-- Where `(*Reader).readRecord` stands: at the start of a field (of a record
already begun, or at the start of a line), inside a non-quoted field, inside a
quoted field, or just after a quote met inside a quoted field. -/
inductive LexState where
  | fieldStart (inRecord : Bool)
  | unquoted
  | quoted
  | quoteSeen
deriving DecidableEq, Repr

/-- The field loop of `(*Reader).readRecord` under `LazyQuotes`, repeated by
`ReadAll` to the end of the input, one character at a time: `line` is the
number of the line being read (`r.numLine`), `start` the line on which the
record being read starts (`recLine`), `buf` is the field being read, `fields`
the record being read, `records` the records read, each with the line on
which it starts.  An empty line is skipped; at the start of a field leading
white space is skipped when `trimLeadingSpace` is set; a field that starts
with a quote runs to the quote followed by a comma, a line end or the end of
the input, over line ends if need be, `""` standing for a quote and any other
quote for itself; in a non-quoted field a quote stands for itself. -/
def lexLoop (trimLeadingSpace : Bool) : List Char → LexState → Nat → Nat → List Char →
    List String → List (Nat × List String) → List (Nat × List String)
  | [], .fieldStart false, _, _, _, _, records => records
  | [], .fieldStart true, _, start, _, fields, records => records ++ [(start, fields ++ [""])]
  | [], .unquoted, _, start, buf, fields, records =>
    records ++ [(start, fields ++ [String.mk buf])]
  | [], .quoted, _, start, buf, fields, records =>
    records ++ [(start, fields ++ [String.mk buf])]
  | [], .quoteSeen, _, start, buf, fields, records =>
    records ++ [(start, fields ++ [String.mk buf])]
  | c :: rest, .fieldStart inRecord, line, start, _, fields, records =>
    if c = '\n' then
      if inRecord then lexLoop trimLeadingSpace rest (.fieldStart false) (line + 1) (line + 1) []
        [] (records ++ [(start, fields ++ [""])])
      else lexLoop trimLeadingSpace rest (.fieldStart false) (line + 1) (line + 1) [] [] records
    else if trimLeadingSpace && unicode.IsSpace c then
      lexLoop trimLeadingSpace rest (.fieldStart true) line start [] fields records
    else if c = '"' then lexLoop trimLeadingSpace rest .quoted line start [] fields records
    else if c = ',' then
      lexLoop trimLeadingSpace rest (.fieldStart true) line start [] (fields ++ [""]) records
    else lexLoop trimLeadingSpace rest .unquoted line start [c] fields records
  | c :: rest, .unquoted, line, start, buf, fields, records =>
    if c = ',' then
      lexLoop trimLeadingSpace rest (.fieldStart true) line start []
        (fields ++ [String.mk buf]) records
    else if c = '\n' then
      lexLoop trimLeadingSpace rest (.fieldStart false) (line + 1) (line + 1) [] []
        (records ++ [(start, fields ++ [String.mk buf])])
    else lexLoop trimLeadingSpace rest .unquoted line start (buf ++ [c]) fields records
  | c :: rest, .quoted, line, start, buf, fields, records =>
    if c = '"' then lexLoop trimLeadingSpace rest .quoteSeen line start buf fields records
    else if c = '\n' then
      lexLoop trimLeadingSpace rest .quoted (line + 1) start (buf ++ [c]) fields records
    else lexLoop trimLeadingSpace rest .quoted line start (buf ++ [c]) fields records
  | c :: rest, .quoteSeen, line, start, buf, fields, records =>
    if c = '"' then lexLoop trimLeadingSpace rest .quoted line start (buf ++ ['"']) fields records
    else if c = ',' then
      lexLoop trimLeadingSpace rest (.fieldStart true) line start []
        (fields ++ [String.mk buf]) records
    else if c = '\n' then
      lexLoop trimLeadingSpace rest (.fieldStart false) (line + 1) (line + 1) [] []
        (records ++ [(start, fields ++ [String.mk buf])])
    else lexLoop trimLeadingSpace rest .quoted line start (buf ++ ['"', c]) fields records

/-- The records that a reader with `LazyQuotes` set and `TrimLeadingSpace` as
given cuts the text `input` into, each with the number of the line on which it
starts. -/
def lexLines (trimLeadingSpace : Bool) (input : String) : List (Nat × List String) :=
  lexLoop trimLeadingSpace (normalizeLineEnds input.data) (.fieldStart false) 1 1 [] [] []

/-- The records that a reader with `LazyQuotes` set and `TrimLeadingSpace` as
given cuts the text `input` into: the sequence that stands for the stream in
a `Reader (List (List String))`. -/
def lex (trimLeadingSpace : Bool) (input : String) : List (List String) :=
  (lexLines trimLeadingSpace input).map Prod.snd

/-- The loop of `ReadAll` on the records of a text: as `Reader.ReadAll.loop`,
the error naming the line on which the offending record starts, at column 1. -/
def Reader.ReadAllText.loop : Int → List (Nat × List String) → List (List String) →
    List (List String) × Option Error
  | _, [], records => (records, none)
  | fieldsPerRecord, (line, record) :: rest, records =>
    if fieldsPerRecord > 0 then
      if (record.length : Int) ≠ fieldsPerRecord then
        ([], some (.csvAt { StartLine := line, Line := line, Column := 1, Err := .ErrFieldCount }))
      else Reader.ReadAllText.loop fieldsPerRecord rest (records ++ [record])
    else if fieldsPerRecord = 0 then
      Reader.ReadAllText.loop record.length rest (records ++ [record])
    else Reader.ReadAllText.loop fieldsPerRecord rest (records ++ [record])

/-- Method `(*csv.Reader).ReadAll`, on a text.  The lexer is the one for
`LazyQuotes = true`, the setting of `newCSVReader`; `TrimLeadingSpace` is
taken from the reader. -/
def Reader.ReadAllText (reader : Reader String) : List (List String) × Option Error :=
  Reader.ReadAllText.loop reader.FieldsPerRecord (lexLines reader.TrimLeadingSpace reader.r) []

end csv

/-! ## `main.go` -/

/-- Constant `CSVNumField`. -/
def CSVNumField : Nat := 8

/-- Constant `TimeZoneTokyo`. -/
def TimeZoneTokyo : String := "Asia/Tokyo"

/-- The package-level variables: `time.Local`, `DefaultCalendarStartDay` and
`DefaultCalendarBeginDate`. -/
structure Globals where
  Local : time.Location
  DefaultCalendarStartDay : time.Weekday
  DefaultCalendarBeginDate : time.Time
deriving DecidableEq, Repr

/-- The zone database's entry for `Asia/Tokyo`, as it is for every instant
from 1952 on: the zone `JST`, nine hours east of UTC. -/
def time.AsiaTokyo : time.Location :=
  { name := "Asia/Tokyo", zoneName := "JST", zoneOffset := 9 * 60 * 60 }

/-- Function `init`.  `loaded` is what `time.LoadLocation(TimeZoneTokyo)`
gives: `none` when it reports an error. -/
def init (loaded : Option time.Location) : Globals :=
  let loc :=
    match loaded with
    | some loc => loc
    | none => time.FixedZone TimeZoneTokyo (9 * 60 * 60)
  { Local := loc
    DefaultCalendarStartDay := time.Monday
    DefaultCalendarBeginDate := time.Date 2020 time.March 1 0 0 0 0 loc }

/-- Function `newCSVReader`, for either form of the input. -/
def newCSVReader {α : Type} (r : α) : csv.Reader α :=
  let reader := csv.NewReader r
  let reader := { reader with FieldsPerRecord := CSVNumField }
  let reader := { reader with LazyQuotes := true }
  let reader := { reader with TrimLeadingSpace := true }
  reader

/-- Struct `Calendar`. -/
structure Calendar where
  StartDay : time.Weekday
  BeginDate : time.Time
deriving DecidableEq, Repr

/-- Function `NewCalendar`. -/
def NewCalendar (g : Globals) : Calendar :=
  { StartDay := g.DefaultCalendarStartDay
    BeginDate := g.DefaultCalendarBeginDate }

/-- Struct `Record`. -/
structure Record where
  Date : time.Time
  Prefecture : Prefecture
  Infected : Int
  Hospitalized : Int
  Discharged : Int
  Dead : Int
deriving DecidableEq, Repr

/-- Function `NewRecord`.  After the length check every index below is in
range; `getD` stands for the indexing. -/
def NewRecord (g : Globals) (record : List String) : Option Record × Option Error :=
  if record.length ≠ CSVNumField then
    (none, some (.errorString ("Number of fields (" ++ fmt.formatInt record.length
      ++ ") in the CSV record is wrong: " ++ fmt.formatStrings record)))
  else
    match strconv.Atoi (record.getD 0 "") with
    | (_, some err) => (none, some (.num err))
    | (year, none) =>
    match strconv.Atoi (record.getD 1 "") with
    | (_, some err) => (none, some (.num err))
    | (month, none) =>
    match strconv.Atoi (record.getD 2 "") with
    | (_, some err) => (none, some (.num err))
    | (day, none) =>
    match strconv.Atoi (record.getD 4 "") with
    | (_, some err) => (none, some (.num err))
    | (infected, none) =>
    match strconv.Atoi (record.getD 5 "") with
    | (_, some err) => (none, some (.num err))
    | (hospitalized, none) =>
    match strconv.Atoi (record.getD 6 "") with
    | (_, some err) => (none, some (.num err))
    | (discharged, none) =>
    match strconv.Atoi (record.getD 7 "") with
    | (_, some err) => (none, some (.num err))
    | (dead, none) =>
    let date := time.Date year month day 0 0 0 0 g.Local
    let pref := PrefFromString (record.getD 3 "")
    (some { Date := date
            Prefecture := pref
            Infected := infected
            Hospitalized := hospitalized
            Discharged := discharged
            Dead := dead }, none)

/-- The `for ... range records` loop of `Print`, `sb` being the contents of
the `strings.Builder`. -/
def Calendar.Print.loop (g : Globals) : List (List String) → String →
    Run (Option String × Option Error)
  | [], sb => .ret (some sb, none)
  | rec :: rest, sb =>
    match NewRecord g rec with
    | (_, some err) => .ret (none, some err)
    | (none, none) => .panic "runtime error: invalid memory address or nil pointer dereference"
    | (some record, none) =>
      if record.Prefecture = TOKYO then
        Calendar.Print.loop g rest
          (sb ++ (record.Date.String ++ " " ++ fmt.formatInt record.Infected ++ "\n"))
      else Calendar.Print.loop g rest sb

/-- Method `(*Calendar).Print`, on a stream of records.  The returned reader
is represented by the text it yields; `records[1:]` panics on an empty
slice. -/
def Calendar.Print (c : Calendar) (g : Globals) (r : List (List String)) :
    Run (Option String × Option Error) :=
  let reader := newCSVReader r
  match reader.ReadAll with
  | (_, some err) => .ret (none, some err)
  | (records, none) =>
    match records with
    | [] => .panic "runtime error: slice bounds out of range [1:0]"
    | _ :: records => Calendar.Print.loop g records ""

/-- Method `(*Calendar).Print` on the text of the stream: the same body, the
reader cutting the text into records itself. -/
def Calendar.PrintText (c : Calendar) (g : Globals) (r : String) :
    Run (Option String × Option Error) :=
  let reader := newCSVReader r
  match reader.ReadAllText with
  | (_, some err) => .ret (none, some err)
  | (records, none) =>
    match records with
    | [] => .panic "runtime error: slice bounds out of range [1:0]"
    | _ :: records => Calendar.Print.loop g records ""

/-! ## Specification-side definitions -/

section SpecDefs
open strconv

/-- Indices of the numeric fields of a row: year, month, day, infected,
hospitalized, discharged, dead. -/
def numericFields : List Nat := [0, 1, 2, 4, 5, 6, 7]

/-- A well-formed data row: exactly 8 fields, the numeric ones base-10
integers. -/
def wellFormedRow (r : List String) : Bool :=
  decide (r.length = 8) && numericFields.all (fun i => isBase10Int (r.getD i ""))

/-- The record that a well-formed row denotes. -/
def recordOf (g : Globals) (r : List String) : Record :=
  { Date := time.Date (intValue (r.getD 0 "")) (intValue (r.getD 1 "")) (intValue (r.getD 2 ""))
      0 0 0 0 g.Local
    Prefecture := PrefFromString (r.getD 3 "")
    Infected := intValue (r.getD 4 "")
    Hospitalized := intValue (r.getD 5 "")
    Discharged := intValue (r.getD 6 "")
    Dead := intValue (r.getD 7 "") }

/-- Whether a row's prefecture field is exactly the Tokyo name. -/
def isTokyoRow (r : List String) : Bool := decide (r.getD 3 "" = "東京都")

/-- The output line of a retained row: the default rendering of its date, a
space, the infected count in decimal, a newline. -/
def lineOf (g : Globals) (r : List String) : String :=
  (recordOf g r).Date.String ++ " " ++ fmt.formatInt (recordOf g r).Infected ++ "\n"

/-- The lines the spec asks for: one per Tokyo row, in input order. -/
def linesOf (g : Globals) (rows : List (List String)) : List String :=
  (rows.filter isTokyoRow).map (lineOf g)

/-- The example row of the specification: 15 March 2020, Tokyo, 10 infected. -/
def exampleRow : List String := ["2020", "3", "15", "東京都", "10", "5", "3", "1"]

/-- A header row as the data file carries it. -/
def exampleHeader : List String :=
  ["年", "月", "日", "都道府県", "患者数", "入院中", "退院者", "死亡者"]


/-! ### The state of the lexer -/

/-- The state in which the field loop of the reader is after the characters
`cs`, read from the state `s`: the transitions of `csv.lexLoop`. -/
def csv.lexState (trimLeadingSpace : Bool) : List Char → csv.LexState → csv.LexState
  | [], s => s
  | c :: rest, .fieldStart _ =>
    if c = '\n' then csv.lexState trimLeadingSpace rest (.fieldStart false)
    else if trimLeadingSpace && unicode.IsSpace c then
      csv.lexState trimLeadingSpace rest (.fieldStart true)
    else if c = '"' then csv.lexState trimLeadingSpace rest .quoted
    else if c = ',' then csv.lexState trimLeadingSpace rest (.fieldStart true)
    else csv.lexState trimLeadingSpace rest .unquoted
  | c :: rest, .unquoted =>
    if c = ',' then csv.lexState trimLeadingSpace rest (.fieldStart true)
    else if c = '\n' then csv.lexState trimLeadingSpace rest (.fieldStart false)
    else csv.lexState trimLeadingSpace rest .unquoted
  | c :: rest, .quoted =>
    if c = '"' then csv.lexState trimLeadingSpace rest .quoteSeen
    else csv.lexState trimLeadingSpace rest .quoted
  | c :: rest, .quoteSeen =>
    if c = '"' then csv.lexState trimLeadingSpace rest .quoted
    else if c = ',' then csv.lexState trimLeadingSpace rest (.fieldStart true)
    else if c = '\n' then csv.lexState trimLeadingSpace rest (.fieldStart false)
    else csv.lexState trimLeadingSpace rest .quoted

end SpecDefs

end Cal

/-! # Theorems -/

namespace Cal

namespace strconv

/-! ## `strconv.Atoi` accepts exactly the base-10 integers of type `int` -/

theorem decimalFrom_cons (n : Nat) (c : Char) (cs : List Char) :
    decimalFrom n (c :: cs) = decimalFrom (n * 10 + (c.toNat - 48)) cs := rfl

theorem le_decimalFrom (cs : List Char) : ∀ n, n ≤ decimalFrom n cs := by
  induction cs with
  | nil => intro n; exact Nat.le_refl _
  | cons c cs ih =>
    intro n
    rw [decimalFrom_cons]
    exact Nat.le_trans (by omega) (ih _)

theorem ParseUint.loop_ok (cs : List Char) : ∀ n, cs.all isDigit = true →
    decimalFrom n cs ≤ maxUint64 → ParseUint.loop cs n = (decimalFrom n cs, none) := by
  induction cs with
  | nil => intro n _ _; rfl
  | cons c cs ih =>
    intro n hd hle
    rw [List.all_cons, Bool.and_eq_true] at hd
    rw [decimalFrom_cons] at hle
    have hc : c.toNat - 48 ≤ 9 := by
      have := hd.1; simp [isDigit] at this; omega
    have h1 := le_decimalFrom cs (n * 10 + (c.toNat - 48))
    have hmax : maxUint64 = 18446744073709551615 := by decide
    have hlt : n * 10 + (c.toNat - 48) ≤ 18446744073709551615 := by omega
    simp only [ParseUint.loop, hd.1, Bool.not_true, Bool.false_eq_true, if_false]
    rw [if_neg (by omega)]
    have e1 : n * 10 % 2 ^ 64 = n * 10 := Nat.mod_eq_of_lt (by omega)
    have e2 : (n * 10 + (c.toNat - 48)) % 2 ^ 64 = n * 10 + (c.toNat - 48) :=
      Nat.mod_eq_of_lt (by omega)
    simp only [e1, e2]
    rw [if_neg (by omega), decimalFrom_cons]
    exact ih _ hd.2 hle

theorem ParseUint.loop_err (cs : List Char) : ∀ n, n ≤ maxUint64 →
    ¬ (cs.all isDigit = true ∧ decimalFrom n cs ≤ maxUint64) →
    ∃ v k, ParseUint.loop cs n = (v, some k) := by
  induction cs with
  | nil => intro n hn h; exact absurd ⟨rfl, hn⟩ h
  | cons c cs ih =>
    intro n hn h
    have hmax : maxUint64 = 18446744073709551615 := by decide
    simp only [ParseUint.loop]
    by_cases hc : isDigit c = true
    · have hc9 : c.toNat - 48 ≤ 9 := by
        have := hc; simp [isDigit] at this; omega
      simp only [hc, Bool.not_true, Bool.false_eq_true, if_false]
      by_cases h1 : n ≥ maxUint64 / 10 + 1
      · rw [if_pos h1]; exact ⟨_, _, rfl⟩
      · rw [if_neg h1]
        have e1 : n * 10 % 2 ^ 64 = n * 10 := Nat.mod_eq_of_lt (by omega)
        simp only [e1]
        by_cases h2 : n * 10 + (c.toNat - 48) ≤ 18446744073709551615
        · have e2 : (n * 10 + (c.toNat - 48)) % 2 ^ 64 = n * 10 + (c.toNat - 48) :=
            Nat.mod_eq_of_lt (by omega)
          simp only [e2]
          rw [if_neg (by omega)]
          apply ih _ (by omega)
          intro h'
          apply h
          rw [List.all_cons, Bool.and_eq_true, decimalFrom_cons]
          exact ⟨⟨hc, h'.1⟩, h'.2⟩
        · rw [if_pos]
          · exact ⟨_, _, rfl⟩
          · left; omega
    · simp only [hc, Bool.not_false, if_true]
      exact ⟨_, _, rfl⟩

theorem ParseUint_ok (s : String) (h0 : s.data ≠ []) (hd : s.data.all isDigit = true)
    (hle : decimalFrom 0 s.data ≤ maxUint64) : ParseUint s = (decimalFrom 0 s.data, none) := by
  have hs : s ≠ "" := by
    intro e; apply h0; rw [e]
  simp only [ParseUint, if_neg hs, ParseUint.loop_ok _ _ hd hle]

theorem ParseUint_err (s : String)
    (h : ¬ (s.data ≠ [] ∧ s.data.all isDigit = true ∧ decimalFrom 0 s.data ≤ maxUint64)) :
    ∃ v k, ParseUint s = (v, some ⟨"ParseUint", s, k⟩) := by
  by_cases hs : s = ""
  · simp only [ParseUint, if_pos hs]; exact ⟨_, _, rfl⟩
  · have h0 : s.data ≠ [] := by
      intro e; apply hs; cases s; simp_all
    obtain ⟨v, k, hk⟩ := ParseUint.loop_err s.data 0 (by decide) (fun h' => h ⟨h0, h'⟩)
    simp only [ParseUint, if_neg hs, hk]
    exact ⟨_, _, rfl⟩

/-- A range error of `ParseUint` carries the value `maxUint64`. -/
theorem ParseUint.loop_range (cs : List Char) : ∀ n v,
    ParseUint.loop cs n = (v, some .ErrRange) → v = maxUint64 := by
  induction cs with
  | nil => intro n v h; simp [ParseUint.loop] at h
  | cons c cs ih =>
    intro n v h
    simp only [ParseUint.loop] at h
    split at h
    · simp at h
    · split at h
      · simp at h; exact h.symm
      · split at h
        · simp at h; exact h.symm
        · exact ih _ _ h

theorem ParseUint_range (s : String) (v : Nat) (e : NumError)
    (h : ParseUint s = (v, some e)) (hr : e.Err = .ErrRange) : v = maxUint64 := by
  unfold ParseUint at h
  split at h
  · simp only [Prod.mk.injEq, Option.some.injEq] at h
    rw [← h.2] at hr; simp at hr
  · split at h
    · simp at h
    · rename_i n k hl
      simp only [Prod.mk.injEq, Option.some.injEq] at h
      obtain ⟨e1, e2⟩ := h
      subst e1
      rw [← e2] at hr
      simp only at hr
      subst hr
      exact ParseUint.loop_range _ _ _ hl

theorem ParseInt_digits (s : String) :
    (if s.data.head? = some '+' ∨ s.data.head? = some '-' then String.mk s.data.tail else s).data
      = digitsOf s := by
  unfold digitsOf
  split <;> rfl

theorem intValue_bounds (s : String) :
    (hasMinus s = false → intValue s = (decimalFrom 0 (digitsOf s) : Int)) ∧
    (hasMinus s = true → intValue s = -(decimalFrom 0 (digitsOf s) : Int)) := by
  unfold intValue
  constructor <;> intro h <;> simp [h]

theorem ParseInt_ok (s : String) (h : isBase10Int s = true) :
    ParseInt s = (intValue s, none) := by
  simp only [isBase10Int, Bool.and_eq_true, Bool.not_eq_true', decide_eq_true_eq] at h
  obtain ⟨⟨⟨h0, hd⟩, hlo⟩, hhi⟩ := h
  have h0' : digitsOf s ≠ [] := by
    intro e; rw [e] at h0; simp at h0
  have hs : s ≠ "" := by
    intro e; apply h0'; rw [e]; rfl
  have hmax : maxUint64 = 18446744073709551615 := by decide
  have hv := intValue_bounds s
  have hle : decimalFrom 0 (digitsOf s) ≤ maxUint64 := by
    cases hm : hasMinus s
    · have := hv.1 hm; omega
    · have := hv.2 hm; omega
  have hP := ParseUint_ok
    (if s.data.head? = some '+' ∨ s.data.head? = some '-' then String.mk s.data.tail else s)
    (by rw [ParseInt_digits]; exact h0') (by rw [ParseInt_digits]; exact hd)
    (by rw [ParseInt_digits]; exact hle)
  rw [ParseInt_digits] at hP
  simp only [ParseInt, if_neg hs, hP, IntSize]
  cases hm : hasMinus s
  · have e := hv.1 hm
    have hm' : ¬ (s.data.head? = some '-') := by simpa [hasMinus] using hm
    simp only [hm', decide_False, Bool.not_false, true_and, false_and, if_false]
    rw [if_neg (by omega), e]
  · have e := hv.2 hm
    have hm' : s.data.head? = some '-' := by simpa [hasMinus] using hm
    simp only [hm', decide_True, Bool.not_true, Bool.false_eq_true, true_and, false_and, if_false,
      if_true]
    rw [if_neg (by omega), e]

theorem ParseInt_err (s : String) (h : isBase10Int s = false) :
    ∃ v k, ParseInt s = (v, some ⟨"ParseInt", s, k⟩) := by
  by_cases hs : s = ""
  · simp only [ParseInt, if_pos hs]; exact ⟨_, _, rfl⟩
  · have hmax : maxUint64 = 18446744073709551615 := by decide
    have hv := intValue_bounds s
    simp only [ParseInt, if_neg hs, IntSize]
    by_cases hu : (digitsOf s ≠ [] ∧ (digitsOf s).all isDigit = true
        ∧ decimalFrom 0 (digitsOf s) ≤ maxUint64)
    · have hP := ParseUint_ok
        (if s.data.head? = some '+' ∨ s.data.head? = some '-' then String.mk s.data.tail else s)
        (by rw [ParseInt_digits]; exact hu.1) (by rw [ParseInt_digits]; exact hu.2.1)
        (by rw [ParseInt_digits]; exact hu.2.2)
      rw [ParseInt_digits] at hP
      simp only [hP]
      have h0 : (digitsOf s).isEmpty = false := by
        cases hds : digitsOf s with
        | nil => exact absurd hds hu.1
        | cons _ _ => rfl
      simp only [isBase10Int, h0, hu.2.1, Bool.not_false, Bool.true_and, Bool.and_eq_false_iff,
        decide_eq_false_iff_not] at h
      cases hm : hasMinus s
      · have e := hv.1 hm
        have hm' : ¬ (s.data.head? = some '-') := by simpa [hasMinus] using hm
        simp only [hm', decide_False, Bool.not_false, true_and, false_and, if_false]
        rw [if_pos (by omega)]
        exact ⟨_, _, rfl⟩
      · have e := hv.2 hm
        have hm' : s.data.head? = some '-' := by simpa [hasMinus] using hm
        simp only [hm', decide_True, Bool.not_true, Bool.false_eq_true, true_and, false_and,
          if_false]
        rw [if_pos (by omega)]
        exact ⟨_, _, rfl⟩
    · obtain ⟨v, k, hk⟩ := ParseUint_err
        (if s.data.head? = some '+' ∨ s.data.head? = some '-' then String.mk s.data.tail else s)
        (by rw [ParseInt_digits]; exact hu)
      cases k with
      | ErrSyntax => simp only [hk]; exact ⟨_, _, rfl⟩
      | ErrRange =>
        have hv' : v = maxUint64 := ParseUint_range _ _ _ hk rfl
        simp only [hk, hv']
        by_cases hm' : s.data.head? = some '-'
        · simp only [hm', decide_True, Bool.not_true, Bool.false_eq_true, true_and, false_and,
            if_false]
          rw [if_pos (by omega)]
          exact ⟨_, _, rfl⟩
        · simp only [hm', decide_False, Bool.not_false, true_and, false_and, if_false]
          rw [if_pos (by omega)]
          exact ⟨_, _, rfl⟩

/-- Refinement: `Atoi` accepts exactly the base-10 integers of type `int`, and
returns the integer the numeral denotes. -/
theorem Atoi_ok (s : String) (h : isBase10Int s = true) : Atoi s = (intValue s, none) := by
  simp only [Atoi, ParseInt_ok s h]

theorem Atoi_err (s : String) (h : isBase10Int s = false) :
    ∃ v k, Atoi s = (v, some ⟨"Atoi", s, k⟩) := by
  obtain ⟨v, k, hk⟩ := ParseInt_err s h
  simp only [Atoi, hk]
  exact ⟨_, _, rfl⟩

theorem Atoi_none_iff (s : String) : (Atoi s).2 = none ↔ isBase10Int s = true := by
  constructor
  · intro h
    cases hb : isBase10Int s
    · obtain ⟨v, k, hk⟩ := Atoi_err s hb
      rw [hk] at h; simp at h
    · rfl
  · intro h; rw [Atoi_ok s h]

end strconv

open strconv

/-! ## The model of package `time` on known values -/

/-- The Unix epoch is second 0, and 2000-01-01T00:00:00Z is second 946684800. -/
theorem time_Date_epoch :
    time.Date 1970 1 1 0 0 0 0 ⟨"UTC", "UTC", 0⟩ = ⟨0, 0, ⟨"UTC", "UTC", 0⟩⟩
      ∧ time.Date 2000 1 1 0 0 0 0 ⟨"UTC", "UTC", 0⟩ = ⟨946684800, 0, ⟨"UTC", "UTC", 0⟩⟩ := by
  decide

/-- Midnight in Tokyo is 15:00 UTC of the day before. -/
theorem time_Date_tokyo_midnight :
    (time.Date 2020 3 1 0 0 0 0 time.AsiaTokyo).unix
      = (time.Date 2020 2 29 15 0 0 0 ⟨"UTC", "UTC", 0⟩).unix := by
  decide

/-- Renderings of `Time.String`: a leap day, the last day of a year, a
fraction of a second with a negative half-hour offset, a zone without
abbreviation (printed as its offset), a year before year 1. -/
theorem time_String_samples :
    (time.Date 2020 2 29 0 0 0 0 time.AsiaTokyo).String = "2020-02-29 00:00:00 +0900 JST"
      ∧ (time.Date 2020 12 31 0 0 0 0 time.AsiaTokyo).String = "2020-12-31 00:00:00 +0900 JST"
      ∧ (time.Date 2020 3 15 25 61 61 1500000000 ⟨"X", "XST", -34200⟩).String
          = "2020-03-16 02:02:02.5 -0930 XST"
      ∧ (time.Date 2000 1 1 0 0 0 0 ⟨"UTC", "", 0⟩).String = "2000-01-01 00:00:00 +0000 +0000"
      ∧ (time.Date (-1) (-3) (-5) 0 0 0 0 (time.FixedZone "Asia/Tokyo" 32400)).String
          = "-0002-08-26 00:00:00 +0900 Asia/Tokyo" := by
  decide

/-- The 64-bit arithmetic of `time.Date` at the ends of its range: the last
day whose midnight has a Unix second that fits an `int64` is
292277026596-12-04, the next day's wraps around; for the largest year an `int`
can hold the absolute time itself wraps, and the date comes out as 31 December
of the year -2 at 13:26:24. -/
theorem time_Date_wraps :
    (time.Date 292277026596 12 4 0 0 0 0 ⟨"UTC", "UTC", 0⟩).unix = 9223372036854720000
      ∧ (time.Date 292277026596 12 5 0 0 0 0 ⟨"UTC", "UTC", 0⟩).unix = -9223372036854745216
      ∧ (time.Date 292277026597 1 1 0 0 0 0 ⟨"UTC", "UTC", 0⟩).unix = -9223372036852412416
      ∧ (time.Date 9223372036854775807 1 1 0 0 0 0 (time.FixedZone "Asia/Tokyo" 32400)).unix
          = -62198825616
      ∧ (time.Date 9223372036854775807 1 1 0 0 0 0 (time.FixedZone "Asia/Tokyo" 32400)).String
          = "-0002-12-31 13:26:24 +0900 Asia/Tokyo" := by
  decide

/-! ## The arithmetic of `time.Date` and `absDate` -/

theorem wrapInt64_id (x : Int) (h1 : -9223372036854775808 ≤ x) (h2 : x < 9223372036854775808) :
    time.wrapInt64 x = x := by
  unfold time.wrapInt64; omega

theorem wrapUint64_id (x : Int) (h1 : 0 ≤ x) (h2 : x < 18446744073709551616) :
    time.wrapUint64 x = x := by
  unfold time.wrapUint64; omega

theorem time_consts :
    time.absoluteToInternal + time.internalToUnix = -9223372028715321600
      ∧ time.unixToInternal + time.internalToAbsolute = 9223372028715321600 := by
  decide

/-- The absolute time of the instant that `time.Date` builds from the
absolute time `abs` of the civil reading is `abs` again. -/
theorem abs_unix (abs off : Int) (nsec : Int) (name zn : String)
    (h1 : 0 ≤ abs) (h2 : abs < 18446744073709551616) :
    time.Time.abs
      { unix := if off ≠ 0 then
          time.wrapInt64 (time.wrapInt64 (time.wrapInt64 abs
            + (time.absoluteToInternal + time.internalToUnix)) - off)
          else time.wrapInt64 (time.wrapInt64 abs
            + (time.absoluteToInternal + time.internalToUnix)),
        nsec := nsec, loc := ⟨name, zn, off⟩ } = abs := by
  simp only [time.Time.abs, time_consts.1, time_consts.2]
  split
  · unfold time.wrapInt64 time.wrapUint64; omega
  · rename_i h
    have : off = 0 := by
      by_contra hc; exact h hc
    subst this
    unfold time.wrapInt64 time.wrapUint64; omega

theorem norm_id (hi lo base : Int) (h0 : 0 ≤ lo) (h1 : lo < base) :
    time.norm hi lo base = (hi, lo) := by
  have a : ¬ (lo < 0) := by omega
  have b : ¬ (lo ≥ base) := by omega
  simp only [time.norm, if_neg a, if_neg b]


/-- The day count of `daysSinceEpoch` in terms of the cycles of 400, 100 and
4 years of `Y = year - absoluteZeroYear`. -/
theorem daysSinceEpoch_cycles (a b c e : Int) (ha : 0 ≤ a) (ha2 : a ≤ 1461385124)
    (hb : 0 ≤ b) (hb2 : b ≤ 3) (hc : 0 ≤ c) (hc2 : c ≤ 24) (he : 0 ≤ e) (he2 : e ≤ 3) :
    time.daysSinceEpoch (400 * a + 100 * b + 4 * c + e + time.absoluteZeroYear)
      = 146097 * a + 36524 * b + 1461 * c + 365 * e := by
  have h0 : time.wrapUint64 (400 * a + 100 * b + 4 * c + e + time.absoluteZeroYear
      - time.absoluteZeroYear) = 400 * a + 100 * b + 4 * c + e := by
    unfold time.wrapUint64; omega
  have h1 : (400 * a + 100 * b + 4 * c + e) / 400 = a := by omega
  have h2 : (400 * a + 100 * b + 4 * c + e - 400 * a) / 100 = b := by omega
  have h3 : (400 * a + 100 * b + 4 * c + e - 400 * a - 100 * b) / 4 = c := by omega
  have h4 : time.wrapUint64 (146097 * a) = 146097 * a := by unfold time.wrapUint64; omega
  have h5 : time.wrapUint64 (146097 * a + 36524 * b) = 146097 * a + 36524 * b := by
    unfold time.wrapUint64; omega
  have h6 : time.wrapUint64 (146097 * a + 36524 * b + 1461 * c)
      = 146097 * a + 36524 * b + 1461 * c := by
    unfold time.wrapUint64; omega
  have h7 : time.wrapUint64 (146097 * a + 36524 * b + 1461 * c
      + 365 * (400 * a + 100 * b + 4 * c + e - 400 * a - 100 * b - 4 * c))
      = 146097 * a + 36524 * b + 1461 * c + 365 * e := by
    unfold time.wrapUint64; omega
  simp only [time.daysSinceEpoch, h0, h1, h2, h3, h4, h5, h6, h7]

theorem isLeap_cycles (a b c e : Int)
    (hb : 0 ≤ b) (hb2 : b ≤ 3) (hc : 0 ≤ c) (hc2 : c ≤ 24) (he : 0 ≤ e) (he2 : e ≤ 3) :
    time.isLeap (400 * a + 100 * b + 4 * c + e + time.absoluteZeroYear) = true
      ↔ (e = 3 ∧ (c ≠ 24 ∨ b = 3)) := by
  simp only [time.isLeap, time.absoluteZeroYear, Bool.and_eq_true, Bool.or_eq_true,
    decide_eq_true_eq, ne_eq, bne_iff_ne, Bool.not_eq_true', decide_eq_false_iff_not]
  omega


/-- The cycle arithmetic of `absDate`: the absolute second `s` of day `t` of the
year `400a + 100b + 4c + e` after the absolute zero is resolved to that
year and that day of the year. -/
theorem absDate_cycles (a b c e t s : Int) (ha : 0 ≤ a) (ha2 : a ≤ 1461385124)
    (hb : 0 ≤ b) (hb2 : b ≤ 3) (hc : 0 ≤ c) (hc2 : c ≤ 24) (he : 0 ≤ e) (he2 : e ≤ 3)
    (ht : 0 ≤ t) (ht2 : t ≤ 365) (hleap : t = 365 → (e = 3 ∧ (c ≠ 24 ∨ b = 3)))
    (hs : 0 ≤ s) (hs2 : s < 86400) :
    time.absDate ((146097 * a + 36524 * b + 1461 * c + 365 * e + t) * 86400 + s)
      = (if time.isLeap (400 * a + 100 * b + 4 * c + e + time.absoluteZeroYear) = true
            ∧ t = 31 + 29 - 1
          then (400 * a + 100 * b + 4 * c + e + time.absoluteZeroYear, 2, 29)
          else
            if (if time.isLeap (400 * a + 100 * b + 4 * c + e + time.absoluteZeroYear) = true
                  ∧ t > 31 + 29 - 1 then t - 1 else t)
                ≥ time.daysBefore
                  ((if time.isLeap (400 * a + 100 * b + 4 * c + e + time.absoluteZeroYear) = true
                      ∧ t > 31 + 29 - 1 then t - 1 else t) / 31 + 1)
            then (400 * a + 100 * b + 4 * c + e + time.absoluteZeroYear,
              (if time.isLeap (400 * a + 100 * b + 4 * c + e + time.absoluteZeroYear) = true
                  ∧ t > 31 + 29 - 1 then t - 1 else t) / 31 + 2,
              (if time.isLeap (400 * a + 100 * b + 4 * c + e + time.absoluteZeroYear) = true
                  ∧ t > 31 + 29 - 1 then t - 1 else t)
                - time.daysBefore
                  ((if time.isLeap (400 * a + 100 * b + 4 * c + e + time.absoluteZeroYear) = true
                      ∧ t > 31 + 29 - 1 then t - 1 else t) / 31 + 1) + 1)
            else (400 * a + 100 * b + 4 * c + e + time.absoluteZeroYear,
              (if time.isLeap (400 * a + 100 * b + 4 * c + e + time.absoluteZeroYear) = true
                  ∧ t > 31 + 29 - 1 then t - 1 else t) / 31 + 1,
              (if time.isLeap (400 * a + 100 * b + 4 * c + e + time.absoluteZeroYear) = true
                  ∧ t > 31 + 29 - 1 then t - 1 else t)
                - time.daysBefore
                  ((if time.isLeap (400 * a + 100 * b + 4 * c + e + time.absoluteZeroYear) = true
                      ∧ t > 31 + 29 - 1 then t - 1 else t) / 31) + 1)) := by
  have e0 : ((146097 * a + 36524 * b + 1461 * c + 365 * e + t) * 86400 + s) / 86400
      = 146097 * a + 36524 * b + 1461 * c + 365 * e + t := by omega
  have e1 : (146097 * a + 36524 * b + 1461 * c + 365 * e + t) / 146097 = a := by omega
  have e2 : (146097 * a + 36524 * b + 1461 * c + 365 * e + t - 146097 * a) / 36524
      - (146097 * a + 36524 * b + 1461 * c + 365 * e + t - 146097 * a) / 36524 / 4 = b := by
    have r : 146097 * a + 36524 * b + 1461 * c + 365 * e + t - 146097 * a
        = 36524 * b + (1461 * c + 365 * e + t) := by omega
    rw [r]
    by_cases hr : 1461 * c + 365 * e + t = 36524
    · have hb3 : b = 3 := by omega
      rw [hr, hb3]; decide
    · have q : (36524 * b + (1461 * c + 365 * e + t)) / 36524 = b := by omega
      rw [q]; omega
  have e3 : (146097 * a + 36524 * b + 1461 * c + 365 * e + t - 146097 * a - 36524 * b) / 1461
      = c := by omega
  have e4 : (146097 * a + 36524 * b + 1461 * c + 365 * e + t - 146097 * a - 36524 * b
        - 1461 * c) / 365
      - (146097 * a + 36524 * b + 1461 * c + 365 * e + t - 146097 * a - 36524 * b
        - 1461 * c) / 365 / 4 = e := by
    have r : 146097 * a + 36524 * b + 1461 * c + 365 * e + t - 146097 * a - 36524 * b
        - 1461 * c = 365 * e + t := by omega
    rw [r]
    by_cases hr : t = 365
    · have he3 : e = 3 := (hleap hr).1
      rw [hr, he3]; decide
    · have q : (365 * e + t) / 365 = e := by omega
      rw [q]; omega
  have e5 : 146097 * a + 36524 * b + 1461 * c + 365 * e + t - 146097 * a - 36524 * b
        - 1461 * c - 365 * e = t := by omega
  have e6 : time.wrapInt64 (400 * a + 100 * b + 4 * c + e + time.absoluteZeroYear)
      = 400 * a + 100 * b + 4 * c + e + time.absoluteZeroYear := by
    unfold time.wrapInt64 time.absoluteZeroYear; omega
  simp only [time.absDate, e0, e1, e2, e3, e4, e5, e6]


theorem daysBefore_vals :
    time.daysBefore 0 = 0 ∧ time.daysBefore 1 = 31 ∧ time.daysBefore 2 = 59
      ∧ time.daysBefore 3 = 90 ∧ time.daysBefore 4 = 120 ∧ time.daysBefore 5 = 151
      ∧ time.daysBefore 6 = 181 ∧ time.daysBefore 7 = 212 ∧ time.daysBefore 8 = 243
      ∧ time.daysBefore 9 = 273 ∧ time.daysBefore 10 = 304 ∧ time.daysBefore 11 = 334
      ∧ time.daysBefore 12 = 365 := by
  decide

/-- The month and the day of the month that `absDate` reads off the day of the
year of a real calendar date `m`, `d` are `m` and `d`. -/
theorem absDate_month_day (L : Bool) (Y m d : Int) (hm : 1 ≤ m) (hm2 : m ≤ 12) (hd : 1 ≤ d)
    (hd2 : d ≤ if m = 2 ∧ L = true then 29 else time.daysBefore m - time.daysBefore (m - 1)) :
    (if L = true ∧ time.daysBefore (m - 1) + (if L = true ∧ m ≥ 3 then 1 else 0) + (d - 1)
          = 31 + 29 - 1
      then (Y, 2, 29)
      else
        if (if L = true ∧ time.daysBefore (m - 1) + (if L = true ∧ m ≥ 3 then 1 else 0) + (d - 1)
                > 31 + 29 - 1
              then time.daysBefore (m - 1) + (if L = true ∧ m ≥ 3 then 1 else 0) + (d - 1) - 1
              else time.daysBefore (m - 1) + (if L = true ∧ m ≥ 3 then 1 else 0) + (d - 1))
            ≥ time.daysBefore
              ((if L = true ∧ time.daysBefore (m - 1) + (if L = true ∧ m ≥ 3 then 1 else 0)
                    + (d - 1) > 31 + 29 - 1
                then time.daysBefore (m - 1) + (if L = true ∧ m ≥ 3 then 1 else 0) + (d - 1) - 1
                else time.daysBefore (m - 1) + (if L = true ∧ m ≥ 3 then 1 else 0) + (d - 1))
                / 31 + 1)
        then (Y,
          (if L = true ∧ time.daysBefore (m - 1) + (if L = true ∧ m ≥ 3 then 1 else 0) + (d - 1)
                > 31 + 29 - 1
              then time.daysBefore (m - 1) + (if L = true ∧ m ≥ 3 then 1 else 0) + (d - 1) - 1
              else time.daysBefore (m - 1) + (if L = true ∧ m ≥ 3 then 1 else 0) + (d - 1))
            / 31 + 2,
          (if L = true ∧ time.daysBefore (m - 1) + (if L = true ∧ m ≥ 3 then 1 else 0) + (d - 1)
                > 31 + 29 - 1
              then time.daysBefore (m - 1) + (if L = true ∧ m ≥ 3 then 1 else 0) + (d - 1) - 1
              else time.daysBefore (m - 1) + (if L = true ∧ m ≥ 3 then 1 else 0) + (d - 1))
            - time.daysBefore
              ((if L = true ∧ time.daysBefore (m - 1) + (if L = true ∧ m ≥ 3 then 1 else 0)
                    + (d - 1) > 31 + 29 - 1
                then time.daysBefore (m - 1) + (if L = true ∧ m ≥ 3 then 1 else 0) + (d - 1) - 1
                else time.daysBefore (m - 1) + (if L = true ∧ m ≥ 3 then 1 else 0) + (d - 1))
                / 31 + 1) + 1)
        else (Y,
          (if L = true ∧ time.daysBefore (m - 1) + (if L = true ∧ m ≥ 3 then 1 else 0) + (d - 1)
                > 31 + 29 - 1
              then time.daysBefore (m - 1) + (if L = true ∧ m ≥ 3 then 1 else 0) + (d - 1) - 1
              else time.daysBefore (m - 1) + (if L = true ∧ m ≥ 3 then 1 else 0) + (d - 1))
            / 31 + 1,
          (if L = true ∧ time.daysBefore (m - 1) + (if L = true ∧ m ≥ 3 then 1 else 0) + (d - 1)
                > 31 + 29 - 1
              then time.daysBefore (m - 1) + (if L = true ∧ m ≥ 3 then 1 else 0) + (d - 1) - 1
              else time.daysBefore (m - 1) + (if L = true ∧ m ≥ 3 then 1 else 0) + (d - 1))
            - time.daysBefore
              ((if L = true ∧ time.daysBefore (m - 1) + (if L = true ∧ m ≥ 3 then 1 else 0)
                    + (d - 1) > 31 + 29 - 1
                then time.daysBefore (m - 1) + (if L = true ∧ m ≥ 3 then 1 else 0) + (d - 1) - 1
                else time.daysBefore (m - 1) + (if L = true ∧ m ≥ 3 then 1 else 0) + (d - 1))
                / 31) + 1)) = (Y, m, d) := by
  obtain ⟨v0, v1, v2, v3, v4, v5, v6, v7, v8, v9, v10, v11, v12⟩ := daysBefore_vals
  interval_cases m <;> cases L <;>
    simp only [v0, v1, v2, v3, v4, v5, v6, v7, v8, v9, v10, v11, v12, Int.reduceSub,
      Int.reduceAdd, Bool.false_eq_true, false_and, true_and, and_true, and_false, if_false,
      if_true, ite_true, ite_false, ge_iff_le, Int.reduceLE, Int.reduceEq, Int.reduceLT,
      gt_iff_lt, if_pos, if_neg] at hd2 ⊢ <;>
    interval_cases d <;> simp [v0, v1, v2, v3, v4, v5, v6, v7, v8, v9, v10, v11, v12]



theorem yday_bounds (L : Bool) (m d : Int) (hm : 1 ≤ m) (hm2 : m ≤ 12) (hd : 1 ≤ d)
    (hd2 : d ≤ if m = 2 ∧ L = true then 29 else time.daysBefore m - time.daysBefore (m - 1)) :
    0 ≤ time.daysBefore (m - 1) + (if L = true ∧ m ≥ 3 then 1 else 0) + (d - 1)
      ∧ time.daysBefore (m - 1) + (if L = true ∧ m ≥ 3 then 1 else 0) + (d - 1) ≤ 365
      ∧ (time.daysBefore (m - 1) + (if L = true ∧ m ≥ 3 then 1 else 0) + (d - 1) = 365
          → L = true) := by
  obtain ⟨v0, v1, v2, v3, v4, v5, v6, v7, v8, v9, v10, v11, v12⟩ := daysBefore_vals
  refine ⟨?_, ?_, ?_⟩
  · interval_cases m <;> cases L <;>
      simp only [v0, v1, v2, v3, v4, v5, v6, v7, v8, v9, v10, v11, v12, Int.reduceSub,
        Int.reduceAdd, Bool.false_eq_true, false_and, true_and, and_true, and_false, if_false,
        if_true, ite_true, ite_false, ge_iff_le, Int.reduceLE, Int.reduceEq, Int.reduceLT,
        gt_iff_lt, if_pos, if_neg] at hd2 ⊢ <;> omega
  · interval_cases m <;> cases L <;>
      simp only [v0, v1, v2, v3, v4, v5, v6, v7, v8, v9, v10, v11, v12, Int.reduceSub,
        Int.reduceAdd, Bool.false_eq_true, false_and, true_and, and_true, and_false, if_false,
        if_true, ite_true, ite_false, ge_iff_le, Int.reduceLE, Int.reduceEq, Int.reduceLT,
        gt_iff_lt, if_pos, if_neg] at hd2 ⊢ <;> omega
  · intro h
    cases L
    · exfalso
      interval_cases m <;>
        simp only [v0, v1, v2, v3, v4, v5, v6, v7, v8, v9, v10, v11, v12, Int.reduceSub,
          Int.reduceAdd, Bool.false_eq_true, false_and, true_and, and_true, and_false, if_false,
          if_true, ite_true, ite_false, ge_iff_le, Int.reduceLE, Int.reduceEq, Int.reduceLT,
          gt_iff_lt, if_pos, if_neg] at hd2 h <;> omega
    · rfl

theorem wrapUint64_range (x : Int) :
    0 ≤ time.wrapUint64 x ∧ time.wrapUint64 x < 18446744073709551616 := by
  unfold time.wrapUint64; omega

theorem wrapUint64_idem (x : Int) : time.wrapUint64 (time.wrapUint64 x) = time.wrapUint64 x := by
  unfold time.wrapUint64; omega

/-- The instant `time.Date` builds for midnight of day `d`: its absolute
second is that of the day count of the normalised year and month. -/
theorem Date_midnight_abs (y m d : Int) (loc : time.Location) :
    (time.Date y m d 0 0 0 0 loc).abs
      = time.wrapUint64 (time.wrapUint64
          ((if time.isLeap (time.norm y (time.wrapInt64 (m - 1)) 12).1 = true
              ∧ (time.norm y (time.wrapInt64 (m - 1)) 12).2 + 1 ≥ 3
            then time.wrapUint64 (time.wrapUint64
              (time.daysSinceEpoch (time.norm y (time.wrapInt64 (m - 1)) 12).1
                + time.daysBefore ((time.norm y (time.wrapInt64 (m - 1)) 12).2 + 1 - 1)) + 1)
            else time.wrapUint64
              (time.daysSinceEpoch (time.norm y (time.wrapInt64 (m - 1)) 12).1
                + time.daysBefore ((time.norm y (time.wrapInt64 (m - 1)) 12).2 + 1 - 1)))
          + (d - 1)) * 86400) := by
  obtain ⟨name, zn, off⟩ := loc
  simp only [time.Date,
    norm_id 0 0 1000000000 (by decide) (by decide), norm_id 0 0 60 (by decide) (by decide),
    norm_id d 0 24 (by decide) (by decide), time.March]
  have z : (0 : Int) * 3600 + 0 * 60 + 0 = 0 := by decide
  rw [z, Int.add_zero, wrapUint64_idem]
  exact abs_unix _ off 0 name zn (wrapUint64_range _).1 (wrapUint64_range _).2

theorem Date_civil (y m d : Int) (loc : time.Location)
    (hy : -292277022399 ≤ y) (hy2 : y ≤ 292277026595) (hm : 1 ≤ m) (hm2 : m ≤ 12)
    (hd : 1 ≤ d) (hd2 : d ≤ time.daysIn m y) :
    (time.Date y m d 0 0 0 0 loc).Date = (y, m, d)
      ∧ (time.Date y m d 0 0 0 0 loc).Clock = (0, 0, 0) := by
  obtain ⟨a, b, c, e, rfl, ha, ha2, hb, hb2, hc, hc2, he, he2⟩ :
      ∃ a b c e : Int, y = 400 * a + 100 * b + 4 * c + e + time.absoluteZeroYear
        ∧ 0 ≤ a ∧ a ≤ 1461385124 ∧ 0 ≤ b ∧ b ≤ 3 ∧ 0 ≤ c ∧ c ≤ 24 ∧ 0 ≤ e ∧ e ≤ 3 := by
    refine ⟨(y + 292277022399) / 400, (y + 292277022399) % 400 / 100,
      (y + 292277022399) % 100 / 4, (y + 292277022399) % 4, ?_⟩
    unfold time.absoluteZeroYear
    omega
  have hD := daysSinceEpoch_cycles a b c e ha ha2 hb hb2 hc hc2 he he2
  have hL := isLeap_cycles a b c e hb hb2 hc hc2 he he2
  have hyd := yday_bounds (time.isLeap (400 * a + 100 * b + 4 * c + e + time.absoluteZeroYear))
    m d hm hm2 hd hd2
  have hmd := absDate_month_day
    (time.isLeap (400 * a + 100 * b + 4 * c + e + time.absoluteZeroYear))
    (400 * a + 100 * b + 4 * c + e + time.absoluteZeroYear) m d hm hm2 hd hd2
  have hdb : 0 ≤ time.daysBefore (m - 1) ∧ time.daysBefore (m - 1) ≤ 334 := by
    obtain ⟨v0, v1, v2, v3, v4, v5, v6, v7, v8, v9, v10, v11, v12⟩ := daysBefore_vals
    interval_cases m <;>
      simp only [v0, v1, v2, v3, v4, v5, v6, v7, v8, v9, v10, v11, Int.reduceSub] <;> omega
  have hA : (time.Date (400 * a + 100 * b + 4 * c + e + time.absoluteZeroYear) m d
        0 0 0 0 loc).abs
      = (146097 * a + 36524 * b + 1461 * c + 365 * e
          + (time.daysBefore (m - 1)
            + (if time.isLeap (400 * a + 100 * b + 4 * c + e + time.absoluteZeroYear) = true
                ∧ m ≥ 3 then 1 else 0) + (d - 1))) * 86400 + 0 := by
    have hw : time.wrapInt64 (m - 1) = m - 1 := by unfold time.wrapInt64; omega
    have e1 : m - 1 + 1 = m := by omega
    have e2 : m - 1 = m - 1 := rfl
    rw [Date_midnight_abs, hw, norm_id _ (m - 1) 12 (by omega) (by omega)]
    simp only [e1, hD]
    unfold time.absoluteZeroYear at hy2
    by_cases hc1 : time.isLeap (400 * a + 100 * b + 4 * c + e + -292277022399) = true ∧ m ≥ 3
    · simp only [time.absoluteZeroYear, if_pos hc1] at hyd ⊢
      unfold time.wrapUint64
      omega
    · simp only [time.absoluteZeroYear, if_neg hc1] at hyd ⊢
      unfold time.wrapUint64
      omega
  refine ⟨?_, ?_⟩
  · rw [time.Time.Date, hA, absDate_cycles a b c e _ 0 ha ha2 hb hb2 hc hc2 he he2 hyd.1 hyd.2.1
      (fun h => hL.mp (hyd.2.2 h)) (by decide) (by decide)]
    exact hmd
  · rw [time.Time.Clock, hA]
    simp only [Int.add_zero, Int.mul_emod_left]
    decide


/-- The location enters `time.Date` only through the final shift by the zone
offset. -/
theorem Date_loc (y m d h mi s ns : Int) (loc : time.Location) :
    time.Date y m d h mi s ns loc
      = { unix := if loc.zoneOffset ≠ 0
            then time.wrapInt64 ((time.Date y m d h mi s ns ⟨"UTC", "UTC", 0⟩).unix
              - loc.zoneOffset)
            else (time.Date y m d h mi s ns ⟨"UTC", "UTC", 0⟩).unix,
          nsec := (time.Date y m d h mi s ns ⟨"UTC", "UTC", 0⟩).nsec, loc := loc } := by
  simp [time.Date]

theorem norm_twelve (hi lo : Int) (h1 : -4000000000000000000 ≤ hi)
    (h2 : hi ≤ 4000000000000000000) (h3 : -4000000000000000000 ≤ lo)
    (h4 : lo ≤ 4000000000000000000) :
    time.norm hi lo 12 = (hi + lo / 12, lo % 12) := by
  unfold time.norm
  by_cases hneg : lo < 0
  · have e1 : time.wrapInt64 (-lo) = -lo := by unfold time.wrapInt64; omega
    have e2 : time.wrapInt64 (-lo - 1) = -lo - 1 := by unfold time.wrapInt64; omega
    have e3 : time.wrapInt64 ((-lo - 1) / 12 + 1) = (-lo - 1) / 12 + 1 := by
      unfold time.wrapInt64; omega
    have e4 : time.wrapInt64 (((-lo - 1) / 12 + 1) * 12) = ((-lo - 1) / 12 + 1) * 12 := by
      unfold time.wrapInt64; omega
    have e5 : time.wrapInt64 (lo + ((-lo - 1) / 12 + 1) * 12) = lo % 12 := by
      unfold time.wrapInt64; omega
    have e6 : time.wrapInt64 (hi - ((-lo - 1) / 12 + 1)) = hi + lo / 12 := by
      unfold time.wrapInt64; omega
    have e7 : ¬ (lo % 12 ≥ 12) := by omega
    simp only [if_pos hneg, e1, e2, e3, e4, e5, e6, if_neg e7]
  · by_cases hge : lo ≥ 12
    · have e4 : time.wrapInt64 (lo / 12 * 12) = lo / 12 * 12 := by
        unfold time.wrapInt64; omega
      have e5 : time.wrapInt64 (lo - lo / 12 * 12) = lo % 12 := by
        unfold time.wrapInt64; omega
      have e6 : time.wrapInt64 (hi + lo / 12) = hi + lo / 12 := by
        unfold time.wrapInt64; omega
      simp only [if_neg hneg, if_pos hge, e4, e5, e6]
    · have e1 : lo / 12 = 0 := by omega
      have e2 : lo % 12 = lo := by omega
      simp only [if_neg hneg, if_neg hge, e1, e2, Int.add_zero]

/-- Twelve more months are one more year. -/
theorem Date_month_overflow (y m d h mi s ns : Int) (loc : time.Location)
    (h1 : -1000000000000000000 ≤ y) (h2 : y ≤ 1000000000000000000)
    (h3 : -1000000000000000000 ≤ m) (h4 : m ≤ 1000000000000000000) :
    time.Date y (m + 12) d h mi s ns loc = time.Date (y + 1) m d h mi s ns loc := by
  have a1 : time.wrapInt64 (m + 12 - 1) = m + 11 := by unfold time.wrapInt64; omega
  have a2 : time.wrapInt64 (m - 1) = m - 1 := by unfold time.wrapInt64; omega
  have e : time.norm y (time.wrapInt64 (m + 12 - 1)) 12
      = time.norm (y + 1) (time.wrapInt64 (m - 1)) 12 := by
    rw [a1, a2, norm_twelve y (m + 11) (by omega) (by omega) (by omega) (by omega),
      norm_twelve (y + 1) (m - 1) (by omega) (by omega) (by omega) (by omega)]
    have : (m + 11) / 12 = (m - 1) / 12 + 1 := by omega
    have : (m + 11) % 12 = (m - 1) % 12 := by omega
    simp only [Prod.mk.injEq]
    omega
  simp only [time.Date, e]

/-- Bounds of the day count of `daysSinceEpoch` for the years a `time.Time` can
hold. -/
theorem daysSinceEpoch_bounds (y : Int) (h1 : -292277022399 ≤ y) (h2 : y ≤ 292277026595) :
    365 * (y + 292277022399) ≤ time.daysSinceEpoch y
      ∧ 400 * time.daysSinceEpoch y ≤ 146097 * (y + 292277022399) + 600 := by
  obtain ⟨a, b, c, e, rfl, ha, ha2, hb, hb2, hc, hc2, he, he2⟩ :
      ∃ a b c e : Int, y = 400 * a + 100 * b + 4 * c + e + time.absoluteZeroYear
        ∧ 0 ≤ a ∧ a ≤ 1461385124 ∧ 0 ≤ b ∧ b ≤ 3 ∧ 0 ≤ c ∧ c ≤ 24 ∧ 0 ≤ e ∧ e ≤ 3 := by
    refine ⟨(y + 292277022399) / 400, (y + 292277022399) % 400 / 100,
      (y + 292277022399) % 100 / 4, (y + 292277022399) % 4, ?_⟩
    unfold time.absoluteZeroYear
    omega
  rw [daysSinceEpoch_cycles a b c e ha ha2 hb hb2 hc hc2 he he2]
  unfold time.absoluteZeroYear
  omega

theorem daysBefore_bounds (m : Int) : 0 ≤ time.daysBefore m ∧ time.daysBefore m ≤ 365 := by
  obtain ⟨v0, v1, v2, v3, v4, v5, v6, v7, v8, v9, v10, v11, v12⟩ := daysBefore_vals
  by_cases h : 0 ≤ m ∧ m ≤ 12
  · obtain ⟨h1, h2⟩ := h
    interval_cases m <;>
      simp only [v0, v1, v2, v3, v4, v5, v6, v7, v8, v9, v10, v11, v12] <;> omega
  · have : time.daysBefore m = 0 := by
      unfold time.daysBefore
      by_cases hm : m < 0
      · have : m.toNat = 0 := by omega
        rw [this]; rfl
      · have : 13 ≤ m.toNat := by omega
        rw [List.getD_eq_default]
        simpa using this
    rw [this]; omega

/-- The Unix second of the instant `time.Date` builds for midnight of day
`d`. -/
theorem Date_midnight_unix (y m d : Int) (loc : time.Location) :
    (time.Date y m d 0 0 0 0 loc).unix
      = if loc.zoneOffset ≠ 0 then
          time.wrapInt64 (time.wrapInt64 (time.wrapInt64 (time.wrapUint64 (time.wrapUint64
            ((if time.isLeap (time.norm y (time.wrapInt64 (m - 1)) 12).1 = true
                ∧ (time.norm y (time.wrapInt64 (m - 1)) 12).2 + 1 ≥ 3
              then time.wrapUint64 (time.wrapUint64
                (time.daysSinceEpoch (time.norm y (time.wrapInt64 (m - 1)) 12).1
                  + time.daysBefore ((time.norm y (time.wrapInt64 (m - 1)) 12).2 + 1 - 1)) + 1)
              else time.wrapUint64
                (time.daysSinceEpoch (time.norm y (time.wrapInt64 (m - 1)) 12).1
                  + time.daysBefore ((time.norm y (time.wrapInt64 (m - 1)) 12).2 + 1 - 1)))
            + (d - 1)) * 86400)) + (time.absoluteToInternal + time.internalToUnix))
            - loc.zoneOffset)
        else
          time.wrapInt64 (time.wrapInt64 (time.wrapUint64 (time.wrapUint64
            ((if time.isLeap (time.norm y (time.wrapInt64 (m - 1)) 12).1 = true
                ∧ (time.norm y (time.wrapInt64 (m - 1)) 12).2 + 1 ≥ 3
              then time.wrapUint64 (time.wrapUint64
                (time.daysSinceEpoch (time.norm y (time.wrapInt64 (m - 1)) 12).1
                  + time.daysBefore ((time.norm y (time.wrapInt64 (m - 1)) 12).2 + 1 - 1)) + 1)
              else time.wrapUint64
                (time.daysSinceEpoch (time.norm y (time.wrapInt64 (m - 1)) 12).1
                  + time.daysBefore ((time.norm y (time.wrapInt64 (m - 1)) 12).2 + 1 - 1)))
            + (d - 1)) * 86400)) + (time.absoluteToInternal + time.internalToUnix)) := by
  simp only [time.Date,
    norm_id 0 0 1000000000 (by decide) (by decide), norm_id 0 0 60 (by decide) (by decide),
    norm_id d 0 24 (by decide) (by decide), time.March]
  have z : (0 : Int) * 3600 + 0 * 60 + 0 = 0 := by decide
  rw [z, Int.add_zero, wrapUint64_idem]

/-- The Unix second of an absolute second `A` read at the offset `off`, when
it fits an `int64`. -/
theorem unix_of_abs (A off : Int) (h1 : 0 ≤ A) (h2 : A ≤ 18446744065569000000)
    (ho : -86400 ≤ off) (ho2 : off ≤ 86400) :
    (if off ≠ 0 then
        time.wrapInt64 (time.wrapInt64 (time.wrapInt64 (time.wrapUint64 A)
          + -9223372028715321600) - off)
      else time.wrapInt64 (time.wrapInt64 (time.wrapUint64 A) + -9223372028715321600))
      = A - 9223372028715321600 - off := by
  have e1 : time.wrapUint64 A = A := by unfold time.wrapUint64; omega
  have e2 : time.wrapInt64 (time.wrapInt64 A + -9223372028715321600)
      = A - 9223372028715321600 := by
    unfold time.wrapInt64; omega
  rw [e1, e2]
  split
  · unfold time.wrapInt64; omega
  · rename_i h
    have : off = 0 := by
      by_contra hc; exact h hc
    omega

/-- One more day is 86400 seconds later. -/
theorem Date_day_linear (y m d : Int) (loc : time.Location)
    (hy : 1970 ≤ y) (hy2 : y ≤ 292277026000) (hm : -100 ≤ m) (hm2 : m ≤ 100)
    (hd : -1000 ≤ d) (hd2 : d ≤ 1000)
    (ho : -86400 ≤ loc.zoneOffset) (ho2 : loc.zoneOffset ≤ 86400) :
    (time.Date y m (d + 1) 0 0 0 0 loc).unix = (time.Date y m d 0 0 0 0 loc).unix + 86400 := by
  rw [Date_midnight_unix, Date_midnight_unix]
  have a2 : time.wrapInt64 (m - 1) = m - 1 := by unfold time.wrapInt64; omega
  rw [a2, norm_twelve y (m - 1) (by omega) (by omega) (by omega) (by omega)]
  simp only [time_consts.1]
  clear a2
  have hq : -9 ≤ (m - 1) / 12 ∧ (m - 1) / 12 ≤ 8 := by omega
  obtain ⟨b1, b2⟩ := daysSinceEpoch_bounds (y + (m - 1) / 12) (by omega) (by omega)
  obtain ⟨c1, c2⟩ := daysBefore_bounds ((m - 1) % 12 + 1 - 1)
  generalize time.daysSinceEpoch (y + (m - 1) / 12) = D at b1 b2 ⊢
  generalize time.daysBefore ((m - 1) % 12 + 1 - 1) = B at c1 c2 ⊢
  generalize time.isLeap (y + (m - 1) / 12) = L
  generalize (m - 1) / 12 = q at hq b1 b2 ⊢
  have e1 : time.wrapUint64 (D + B) = D + B := by unfold time.wrapUint64; omega
  have e2 : time.wrapUint64 (D + B + 1) = D + B + 1 := by unfold time.wrapUint64; omega
  rw [e1, e2]
  clear e1 e2
  have key : ∀ X : Int, D ≤ X → X ≤ D + 366 →
      (if loc.zoneOffset ≠ 0 then
          time.wrapInt64 (time.wrapInt64 (time.wrapInt64 (time.wrapUint64
            (time.wrapUint64 (X + (d + 1 - 1)) * 86400)) + -9223372028715321600)
            - loc.zoneOffset)
        else time.wrapInt64 (time.wrapInt64 (time.wrapUint64
            (time.wrapUint64 (X + (d + 1 - 1)) * 86400)) + -9223372028715321600))
        = (if loc.zoneOffset ≠ 0 then
          time.wrapInt64 (time.wrapInt64 (time.wrapInt64 (time.wrapUint64
            (time.wrapUint64 (X + (d - 1)) * 86400)) + -9223372028715321600)
            - loc.zoneOffset)
        else time.wrapInt64 (time.wrapInt64 (time.wrapUint64
            (time.wrapUint64 (X + (d - 1)) * 86400)) + -9223372028715321600)) + 86400 := by
    intro X hX1 hX2
    have f1 : time.wrapUint64 (X + (d + 1 - 1)) = X + d := by unfold time.wrapUint64; omega
    have f2 : time.wrapUint64 (X + (d - 1)) = X + d - 1 := by unfold time.wrapUint64; omega
    rw [f1, f2, unix_of_abs ((X + d) * 86400) _ (by omega) (by omega) ho ho2,
      unix_of_abs ((X + d - 1) * 86400) _ (by omega) (by omega) ho ho2]
    omega
  by_cases hl : L = true ∧ (m - 1) % 12 + 1 ≥ 3
  · simp only [if_pos hl]
    exact key (D + B + 1) (by omega) (by omega)
  · simp only [if_neg hl]
    exact key (D + B) (by omega) (by omega)


theorem Date_midnight_nsec (y m d : Int) (loc : time.Location) :
    (time.Date y m d 0 0 0 0 loc).nsec = 0 ∧ (time.Date y m d 0 0 0 0 loc).loc = loc := by
  simp only [time.Date, norm_id 0 0 1000000000 (by decide) (by decide), and_self]

theorem clock_zero (R : String) :
    " " ++ (time.appendInt 0 2 ++ (":" ++ (time.appendInt 0 2 ++ (":" ++ (time.appendInt 0 2
      ++ (time.formatNano 0 ++ R)))))) = " 00:00:00" ++ R := by
  have a : time.appendInt 0 2 = "00" := by decide
  have b : time.formatNano 0 = "" := by decide
  rw [a, b]
  apply String.ext
  simp only [String.data_append]
  rfl

/-- The rendering of midnight of a real calendar date: the date as written,
`00:00:00`, and the zone. -/
theorem String_civil (y m d : Int) (loc : time.Location)
    (hy : -292277022399 ≤ y) (hy2 : y ≤ 292277026595) (hm : 1 ≤ m) (hm2 : m ≤ 12)
    (hd : 1 ≤ d) (hd2 : d ≤ time.daysIn m y) :
    ∃ zone : String, (time.Date y m d 0 0 0 0 loc).String
      = time.appendInt y 4 ++ "-" ++ time.appendInt m 2 ++ "-" ++ time.appendInt d 2
          ++ " 00:00:00" ++ zone := by
  obtain ⟨h1, h2⟩ := Date_civil y m d loc hy hy2 hm hm2 hd hd2
  unfold time.Time.String
  rw [h1, h2, (Date_midnight_nsec y m d loc).1]
  simp only [String.append_assoc]
  rw [clock_zero]
  exact ⟨_, rfl⟩

theorem String_2020_03_15 (loc : time.Location) :
    ∃ zone : String, (time.Date 2020 3 15 0 0 0 0 loc).String = "2020-03-15 00:00:00" ++ zone := by
  obtain ⟨zone, hz⟩ := String_civil 2020 3 15 loc (by decide) (by decide) (by decide) (by decide)
    (by decide) (by decide)
  exact ⟨zone, hz.trans rfl⟩


/-! ## The record parser, the reader and the print loop -/

theorem wellFormedRow_iff (r : List String) :
    wellFormedRow r = true ↔ r.length = 8 ∧ isBase10Int (r.getD 0 "") = true
      ∧ isBase10Int (r.getD 1 "") = true ∧ isBase10Int (r.getD 2 "") = true
      ∧ isBase10Int (r.getD 4 "") = true ∧ isBase10Int (r.getD 5 "") = true
      ∧ isBase10Int (r.getD 6 "") = true ∧ isBase10Int (r.getD 7 "") = true := by
  simp [wellFormedRow, numericFields]

theorem NewRecord_ok (g : Globals) (r : List String) (h : wellFormedRow r = true) :
    NewRecord g r = (some (recordOf g r), none) := by
  rw [wellFormedRow_iff] at h
  obtain ⟨hl, h0, h1, h2, h4, h5, h6, h7⟩ := h
  have hl' : ¬ r.length ≠ CSVNumField := by simp [CSVNumField, hl]
  simp only [NewRecord, if_neg hl', Atoi_ok _ h0, Atoi_ok _ h1, Atoi_ok _ h2, Atoi_ok _ h4,
    Atoi_ok _ h5, Atoi_ok _ h6, Atoi_ok _ h7, recordOf]

theorem NewRecord_err (g : Globals) (r : List String) (h : wellFormedRow r = false) :
    ∃ e, NewRecord g r = (none, some e) := by
  by_cases hl : r.length ≠ CSVNumField
  · simp only [NewRecord, if_pos hl]; exact ⟨_, rfl⟩
  · simp only [NewRecord, if_neg hl]
    cases h0 : isBase10Int (r.getD 0 "")
    · obtain ⟨v, k, hk⟩ := Atoi_err _ h0; simp only [hk]; exact ⟨_, rfl⟩
    simp only [Atoi_ok _ h0]
    cases h1 : isBase10Int (r.getD 1 "")
    · obtain ⟨v, k, hk⟩ := Atoi_err _ h1; simp only [hk]; exact ⟨_, rfl⟩
    simp only [Atoi_ok _ h1]
    cases h2 : isBase10Int (r.getD 2 "")
    · obtain ⟨v, k, hk⟩ := Atoi_err _ h2; simp only [hk]; exact ⟨_, rfl⟩
    simp only [Atoi_ok _ h2]
    cases h4 : isBase10Int (r.getD 4 "")
    · obtain ⟨v, k, hk⟩ := Atoi_err _ h4; simp only [hk]; exact ⟨_, rfl⟩
    simp only [Atoi_ok _ h4]
    cases h5 : isBase10Int (r.getD 5 "")
    · obtain ⟨v, k, hk⟩ := Atoi_err _ h5; simp only [hk]; exact ⟨_, rfl⟩
    simp only [Atoi_ok _ h5]
    cases h6 : isBase10Int (r.getD 6 "")
    · obtain ⟨v, k, hk⟩ := Atoi_err _ h6; simp only [hk]; exact ⟨_, rfl⟩
    simp only [Atoi_ok _ h6]
    cases h7 : isBase10Int (r.getD 7 "")
    · obtain ⟨v, k, hk⟩ := Atoi_err _ h7; simp only [hk]; exact ⟨_, rfl⟩
    exfalso
    have : wellFormedRow r = true := by
      rw [wellFormedRow_iff]
      refine ⟨?_, h0, h1, h2, h4, h5, h6, h7⟩
      simpa [CSVNumField] using hl
    rw [h] at this; exact Bool.noConfusion this

theorem PrefFromString_eq_TOKYO_iff (s : String) : PrefFromString s = TOKYO ↔ s = "東京都" := by
  unfold PrefFromString
  constructor
  · intro h
    split at h
    · rename_i h1; subst h1; exact absurd h (by decide)
    · split at h
      · assumption
      · split at h
        · exact absurd h (by decide)
        · split at h
          · exact absurd h (by decide)
          · exact absurd h (by decide)
  · intro h; subst h; decide

theorem String_join_cons (a : String) (l : List String) :
    String.join (a :: l) = a ++ String.join l := by
  apply String.ext
  simp [String.data_join]

theorem ReadAll_loop_ok (rs : List (List String)) : ∀ (i : Nat) (acc : List (List String)),
    (∀ r ∈ rs, r.length = 8) →
    csv.Reader.ReadAll.loop 8 i rs acc = (acc ++ rs, none) := by
  induction rs with
  | nil => intro i acc _; simp [csv.Reader.ReadAll.loop]
  | cons r rs ih =>
    intro i acc h
    have hr : r.length = 8 := h r (List.mem_cons_self _ _)
    simp only [csv.Reader.ReadAll.loop, hr]
    simp only [Nat.cast_ofNat, gt_iff_lt, Nat.ofNat_pos, if_true, ne_eq, not_true_eq_false,
      if_false]
    rw [ih (i + 1) (acc ++ [r]) (fun x hx => h x (List.mem_cons_of_mem _ hx))]
    simp

theorem ReadAll_loop_err (rs : List (List String)) : ∀ (i : Nat) (acc : List (List String)),
    (∃ r ∈ rs, r.length ≠ 8) →
    csv.Reader.ReadAll.loop 8 i rs acc
      = ([], some (.csv ⟨i + rs.findIdx (fun r => decide (r.length ≠ 8)), .ErrFieldCount⟩)) := by
  induction rs with
  | nil => intro i acc h; obtain ⟨r, hr, _⟩ := h; cases hr
  | cons r rs ih =>
    intro i acc h
    by_cases hr : r.length = 8
    · have h' : ∃ x ∈ rs, x.length ≠ 8 := by
        obtain ⟨x, hx, hne⟩ := h
        rcases List.mem_cons.mp hx with e | hx'
        · subst e; exact absurd hr hne
        · exact ⟨x, hx', hne⟩
      simp only [csv.Reader.ReadAll.loop, hr]
      simp only [Nat.cast_ofNat, gt_iff_lt, Nat.ofNat_pos, if_true, ne_eq, not_true_eq_false,
        if_false]
      rw [ih (i + 1) (acc ++ [r]) h', List.findIdx_cons]
      simp [hr, Nat.add_assoc, Nat.add_comm 1]
    · have hr' : ¬ ((r.length : Int) = 8) := by
        intro e; apply hr; exact_mod_cast e
      simp only [csv.Reader.ReadAll.loop]
      simp only [gt_iff_lt, Nat.ofNat_pos, if_true, ne_eq, hr', not_false_eq_true]
      rw [List.findIdx_cons]
      simp [hr]

theorem ReadAll_ok (r : List (List String)) (h : ∀ x ∈ r, x.length = 8) :
    (newCSVReader r).ReadAll = (r, none) := by
  have := ReadAll_loop_ok r 0 [] h
  simpa [csv.Reader.ReadAll, newCSVReader, csv.NewReader, CSVNumField] using this

theorem ReadAll_err (r : List (List String)) (h : ∃ x ∈ r, x.length ≠ 8) :
    (newCSVReader r).ReadAll
      = ([], some (.csv ⟨r.findIdx (fun x => decide (x.length ≠ 8)), .ErrFieldCount⟩)) := by
  have := ReadAll_loop_err r 0 [] h
  simpa [csv.Reader.ReadAll, newCSVReader, csv.NewReader, CSVNumField] using this

theorem Print_loop_ok (g : Globals) (rows : List (List String)) : ∀ sb : String,
    (∀ r ∈ rows, wellFormedRow r = true) →
    Calendar.Print.loop g rows sb = .ret (some (sb ++ String.join (linesOf g rows)), none) := by
  induction rows with
  | nil => intro sb _; simp [Calendar.Print.loop, linesOf, String.join]
  | cons r rows ih =>
    intro sb h
    have hr := h r (List.mem_cons_self _ _)
    have ih' := fun sb => ih sb (fun x hx => h x (List.mem_cons_of_mem _ hx))
    simp only [Calendar.Print.loop, NewRecord_ok g r hr]
    by_cases ht : r.getD 3 "" = "東京都"
    · have hp : (recordOf g r).Prefecture = TOKYO := (PrefFromString_eq_TOKYO_iff _).2 ht
      have hf : isTokyoRow r = true := decide_eq_true ht
      rw [if_pos hp, ih']
      simp only [linesOf, List.filter_cons, hf, if_true, List.map_cons, String_join_cons, lineOf,
        String.append_assoc]
    · have hp : ¬ (recordOf g r).Prefecture = TOKYO :=
        fun e => ht ((PrefFromString_eq_TOKYO_iff _).1 e)
      have hf : isTokyoRow r = false := decide_eq_false ht
      rw [if_neg hp, ih']
      simp [linesOf, List.filter_cons, hf]

theorem Print_loop_err (g : Globals) (rows : List (List String)) : ∀ sb : String,
    (∃ r ∈ rows, wellFormedRow r = false) →
    ∃ e, Calendar.Print.loop g rows sb = .ret (none, some e) := by
  induction rows with
  | nil => intro sb h; obtain ⟨r, hr, _⟩ := h; cases hr
  | cons r rows ih =>
    intro sb h
    cases hr : wellFormedRow r
    · obtain ⟨e, he⟩ := NewRecord_err g r hr
      simp only [Calendar.Print.loop, he]
      exact ⟨_, rfl⟩
    · have h' : ∃ x ∈ rows, wellFormedRow x = false := by
        obtain ⟨x, hx, hne⟩ := h
        rcases List.mem_cons.mp hx with e | hx'
        · subst e; rw [hr] at hne; exact Bool.noConfusion hne
        · exact ⟨x, hx', hne⟩
      simp only [Calendar.Print.loop, NewRecord_ok g r hr]
      split
      · exact ih _ h'
      · exact ih _ h'

theorem digitChar_ne_newline (m : Nat) : Nat.digitChar m ≠ '\n' := by
  by_cases h : m < 16
  · interval_cases m <;> decide
  · have e : Nat.digitChar m = '*' := by
      unfold Nat.digitChar
      repeat rw [if_neg (by omega)]
    rw [e]; decide

theorem toDigitsCore_no_newline (fuel : Nat) : ∀ (n : Nat) (acc : List Char),
    '\n' ∉ acc → '\n' ∉ Nat.toDigitsCore 10 fuel n acc := by
  induction fuel with
  | zero => intro n acc h; simpa [Nat.toDigitsCore] using h
  | succ fuel ih =>
    intro n acc h
    have hcons : '\n' ∉ Nat.digitChar (n % 10) :: acc := by
      intro hm
      rcases List.mem_cons.mp hm with e | e
      · exact digitChar_ne_newline _ e.symm
      · exact h e
    simp only [Nat.toDigitsCore]
    split
    · exact hcons
    · exact ih _ _ hcons

theorem repr_no_newline (n : Nat) : '\n' ∉ (Nat.repr n).data := by
  simp only [Nat.repr, Nat.toDigits, List.asString]
  exact toDigitsCore_no_newline _ _ _ (List.not_mem_nil _)

theorem formatInt_no_newline (x : Int) : '\n' ∉ (fmt.formatInt x).data := by
  unfold fmt.formatInt
  intro h
  rw [String.data_append, List.mem_append] at h
  rcases h with h | h
  · split at h
    · exact absurd h (by decide)
    · exact absurd h (by decide)
  · exact repr_no_newline _ h

theorem appendInt_no_newline (x : Int) (w : Nat) : '\n' ∉ (time.appendInt x w).data := by
  unfold time.appendInt
  intro h
  simp only [String.data_append, List.mem_append] at h
  rcases h with (h | h) | h
  · split at h
    · exact absurd h (by decide)
    · exact absurd h (by decide)
  · have := List.eq_of_mem_replicate h
    exact absurd this (by decide)
  · exact repr_no_newline _ h

theorem formatNano_no_newline (n : Int) : '\n' ∉ (time.formatNano n).data := by
  unfold time.formatNano
  split
  · decide
  · intro h
    simp only [String.data_append, List.mem_append, List.mem_reverse] at h
    rcases h with h | h
    · exact absurd h (by decide)
    · have hs := (List.dropWhile_sublist (fun c => decide (c = '0'))
        (l := (time.appendInt n 9).data.reverse)).subset h
      exact appendInt_no_newline _ _ (List.mem_reverse.mp hs)

theorem Time_String_no_newline (t : time.Time) (hz : '\n' ∉ t.loc.zoneName.data) :
    '\n' ∉ t.String.data := by
  unfold time.Time.String
  intro h
  have hA := appendInt_no_newline
  have hN := formatNano_no_newline
  have hsign : ∀ z : Int, '\n' ∉ (if z < 0 then "-" else "+").data := by
    intro z; split <;> decide
  have hzone : '\n' ∉ (if t.loc.zoneName ≠ "" then t.loc.zoneName
      else (if Int.tdiv t.loc.zoneOffset 60 < 0 then "-" else "+")
        ++ time.appendInt (((Int.tdiv t.loc.zoneOffset 60).natAbs : Int) / 60) 2
        ++ time.appendInt (((Int.tdiv t.loc.zoneOffset 60).natAbs : Int) % 60) 2).data := by
    split
    · exact hz
    · intro h
      simp only [String.data_append, List.mem_append] at h
      rcases h with (h | h) | h
      · exact hsign _ h
      · exact hA _ _ h
      · exact hA _ _ h
  simp only [String.data_append, List.mem_append] at h
  casesm* _ ∨ _
  all_goals rename_i h
  all_goals first
    | exact hA _ _ h
    | exact hN _ h
    | exact hsign _ h
    | exact hzone h
    | exact absurd h (by decide)

theorem lineOf_shape (g : Globals) (r : List String) (hz : '\n' ∉ g.Local.zoneName.data) :
    ∃ body : List Char, (lineOf g r).data = body ++ ['\n'] ∧ '\n' ∉ body := by
  refine ⟨((recordOf g r).Date.String ++ " " ++ fmt.formatInt (recordOf g r).Infected).data,
    rfl, ?_⟩
  intro h
  simp only [String.data_append, List.mem_append] at h
  rcases h with (h | h) | h
  · refine Time_String_no_newline _ ?_ h
    exact hz
  · exact absurd h (by decide)
  · exact formatInt_no_newline _ h

theorem Print_cons (c : Calendar) (g : Globals) (header : List String)
    (rows : List (List String)) (h : ∀ x ∈ header :: rows, x.length = 8) :
    c.Print g (header :: rows) = Calendar.Print.loop g rows "" := by
  simp only [Calendar.Print, ReadAll_ok _ h]

theorem Print_ok (c : Calendar) (g : Globals) (header : List String)
    (rows : List (List String)) (hh : header.length = 8)
    (hw : ∀ r ∈ rows, wellFormedRow r = true) :
    c.Print g (header :: rows) = .ret (some (String.join (linesOf g rows)), none) := by
  have h8 : ∀ x ∈ header :: rows, x.length = 8 := by
    intro x hx
    rcases List.mem_cons.mp hx with e | hx'
    · rw [e]; exact hh
    · exact ((wellFormedRow_iff x).1 (hw x hx')).1
  rw [Print_cons c g header rows h8, Print_loop_ok g rows "" hw, String.empty_append]

theorem wellFormedRow_length {r : List String} (h : wellFormedRow r = true) : r.length = 8 :=
  ((wellFormedRow_iff r).1 h).1

theorem count_newline_join (ls : List String)
    (h : ∀ l ∈ ls, ∃ body : List Char, l.data = body ++ ['\n'] ∧ '\n' ∉ body) :
    (String.join ls).data.count '\n' = ls.length := by
  induction ls with
  | nil => rfl
  | cons l ls ih =>
    obtain ⟨body, hb, hn⟩ := h l (List.mem_cons_self _ _)
    rw [String_join_cons, String.data_append, List.count_append,
      ih (fun x hx => h x (List.mem_cons_of_mem _ hx)), hb, List.count_append,
      List.count_eq_zero_of_not_mem hn]
    simp
    omega

/-- Claim C1: For a well-formed input — a header of 8 fields followed by data
rows of 8 fields whose fields 0, 1, 2, 4, 5, 6, 7 are base-10 integers — in
which `M` data rows have the prefecture field "東京都", `Print` succeeds and
its output is the concatenation of exactly `M` lines, the `i`-th line being
the line of the `i`-th matching row in input order; each line ends in its only
newline, so the output holds exactly `M` newlines. -/
theorem C1_print_one_line_per_tokyo_row (c : Calendar) (g : Globals)
    (header : List String) (rows : List (List String)) (M : Nat)
    (hz : '\n' ∉ g.Local.zoneName.data)
    (hheader : header.length = 8)
    (hrows : ∀ r ∈ rows, wellFormedRow r = true)
    (hM : (rows.filter isTokyoRow).length = M) :
    c.Print g (header :: rows)
        = .ret (some (String.join ((rows.filter isTokyoRow).map (lineOf g))), none)
      ∧ ((rows.filter isTokyoRow).map (lineOf g)).length = M
      ∧ (∀ i : Nat, ((rows.filter isTokyoRow).map (lineOf g))[i]?
            = ((rows.filter isTokyoRow)[i]?).map (lineOf g))
      ∧ (∀ l ∈ (rows.filter isTokyoRow).map (lineOf g),
          ∃ body : List Char, l.data = body ++ ['\n'] ∧ '\n' ∉ body)
      ∧ (String.join ((rows.filter isTokyoRow).map (lineOf g))).data.count '\n' = M := by
  have hshape : ∀ l ∈ (rows.filter isTokyoRow).map (lineOf g),
      ∃ body : List Char, l.data = body ++ ['\n'] ∧ '\n' ∉ body := by
    intro l hl
    obtain ⟨r, _, e⟩ := List.mem_map.mp hl
    rw [← e]
    exact lineOf_shape g r hz
  refine ⟨Print_ok c g header rows hheader hrows, by simpa using hM, ?_, hshape, ?_⟩
  · intro i
    exact List.getElem?_map _ _ _
  · rw [count_newline_join _ hshape]; simpa using hM

theorem linesOf_append (g : Globals) (a b : List (List String)) :
    linesOf g (a ++ b) = linesOf g a ++ linesOf g b := by
  simp [linesOf, List.filter_append]

theorem String_join_append (a b : List String) :
    String.join (a ++ b) = String.join a ++ String.join b := by
  apply String.ext
  simp [String.data_join]

theorem linesOf_cons_tokyo (g : Globals) (r : List String) (rows : List (List String))
    (h : isTokyoRow r = true) : linesOf g (r :: rows) = lineOf g r :: linesOf g rows := by
  simp [linesOf, List.filter_cons, h]

theorem linesOf_cons_other (g : Globals) (r : List String) (rows : List (List String))
    (h : isTokyoRow r = false) : linesOf g (r :: rows) = linesOf g rows := by
  simp [linesOf, List.filter_cons, h]

/-- Claim C2: In a successful run every retained row `r` (prefecture field
"東京都") contributes, at its place in the output, exactly the default
rendering of its date, one space, the decimal infected count of field 4 and a
newline.  The row `["2020","3","15","東京都","10","5","3","1"]` is accepted,
classified as `TOKYO`, and printed as a line that starts with
`2020-03-15 00:00:00` and ends with ` 10` and a newline. -/
theorem C2_retained_row_line (c : Calendar) (g : Globals) (header : List String)
    (pre post : List (List String)) (r : List String)
    (hheader : header.length = 8)
    (hpre : ∀ x ∈ pre, wellFormedRow x = true)
    (hpost : ∀ x ∈ post, wellFormedRow x = true)
    (hr : wellFormedRow r = true) (ht : r.getD 3 "" = "東京都") :
    c.Print g (header :: (pre ++ r :: post))
        = .ret (some (String.join (linesOf g pre)
            ++ ((time.Date (intValue (r.getD 0 "")) (intValue (r.getD 1 ""))
                  (intValue (r.getD 2 "")) 0 0 0 0 g.Local).String
                ++ " " ++ fmt.formatInt (intValue (r.getD 4 "")) ++ "\n")
            ++ String.join (linesOf g post)), none)
      ∧ (∃ rec, NewRecord g exampleRow = (some rec, none) ∧ rec.Prefecture = TOKYO)
      ∧ (∃ mid : String, c.Print g [header, exampleRow]
          = .ret (some ("2020-03-15 00:00:00" ++ mid ++ " 10\n"), none)) := by
  refine ⟨?_, ?_, ?_⟩
  · have hall : ∀ x ∈ pre ++ r :: post, wellFormedRow x = true := by
      intro x hx
      rcases List.mem_append.mp hx with h | h
      · exact hpre x h
      · rcases List.mem_cons.mp h with e | h'
        · rw [e]; exact hr
        · exact hpost x h'
    rw [Print_ok c g header _ hheader hall, linesOf_append,
      linesOf_cons_tokyo g r post (decide_eq_true ht), String_join_append, String_join_cons,
      String.append_assoc]
    rfl
  · have hw : wellFormedRow exampleRow = true := by decide
    exact ⟨_, NewRecord_ok g exampleRow hw, rfl⟩
  · have hw : ∀ x ∈ [exampleRow], wellFormedRow x = true := by
      intro x hx
      rw [List.mem_singleton.mp hx]; decide
    obtain ⟨zone, hzone⟩ := String_2020_03_15 g.Local
    refine ⟨zone, ?_⟩
    rw [Print_ok c g header _ hheader hw,
      linesOf_cons_tokyo g exampleRow [] (by decide)]
    have e : lineOf g exampleRow = "2020-03-15 00:00:00" ++ zone ++ " 10\n" := by
      have e1 : lineOf g exampleRow
          = (time.Date 2020 3 15 0 0 0 0 g.Local).String ++ " " ++ "10" ++ "\n" := by
        have i0 : intValue "2020" = 2020 := by decide
        have i1 : intValue "3" = 3 := by decide
        have i2 : intValue "15" = 15 := by decide
        have i4 : fmt.formatInt (intValue "10") = "10" := by decide
        simp only [lineOf, recordOf, exampleRow, List.getD_cons_zero, List.getD_cons_succ, i0, i1,
          i2, i4]
      rw [e1, hzone, String.append_assoc, String.append_assoc]
      rfl
    rw [e]
    rfl

/-- Witness for C2. -/
theorem C2_retained_row_line_witness :
    (NewCalendar (init none)).Print (init none)
        [exampleHeader, ["2020", "3", "14", "山梨県", "2", "1", "1", "0"], exampleRow,
          ["2020", "3", "16", "東京都", "12", "5", "3", "1"]]
      = .ret (some ("2020-03-15 00:00:00 +0900 Asia/Tokyo 10\n"
          ++ "2020-03-16 00:00:00 +0900 Asia/Tokyo 12\n"), none) :=
  (C2_retained_row_line (NewCalendar (init none)) (init none) exampleHeader
    [["2020", "3", "14", "山梨県", "2", "1", "1", "0"]]
    [["2020", "3", "16", "東京都", "12", "5", "3", "1"]] exampleRow
    (by decide) (by decide) (by decide) (by decide) (by decide)).1.trans (by decide)

theorem wellFormedRow_false_of_field (row : List String) (i : Nat) (f : String)
    (hi : i ∈ numericFields) (hf : row[i]? = some f) (hbad : isBase10Int f = false) :
    wellFormedRow row = false := by
  cases hw : wellFormedRow row
  · rfl
  · exfalso
    have hall : numericFields.all (fun i => isBase10Int (row.getD i "")) = true := by
      simp only [wellFormedRow, Bool.and_eq_true] at hw
      exact hw.2
    have := List.all_eq_true.mp hall i hi
    have e : row.getD i "" = f := by
      rw [List.getD_eq_getElem?_getD, hf]; rfl
    rw [e, hbad] at this
    exact Bool.noConfusion this

/-- Claim C3: If some data row (any row after the first) has a year, month,
day, infected, hospitalized, discharged or dead field that is not a base-10
integer, `Print` returns an error and a nil reader, whatever the other rows
are. -/
theorem C3_non_integer_field_fails (c : Calendar) (g : Globals)
    (input : List (List String)) (row : List String) (i : Nat) (f : String)
    (hrow : row ∈ input.tail) (hi : i ∈ numericFields)
    (hf : row[i]? = some f) (hbad : isBase10Int f = false) :
    ∃ e, c.Print g input = .ret (none, some e) := by
  cases input with
  | nil => cases hrow
  | cons header rows =>
    have hrow' : row ∈ rows := hrow
    by_cases h8 : ∀ x ∈ header :: rows, x.length = 8
    · rw [Print_cons c g header rows h8]
      exact Print_loop_err g rows "" ⟨row, hrow', wellFormedRow_false_of_field row i f hi hf hbad⟩
    · have h8' : ∃ x ∈ header :: rows, x.length ≠ 8 := by
        by_contra hc
        apply h8
        intro x hx
        by_contra hne
        exact hc ⟨x, hx, hne⟩
      simp only [Calendar.Print, ReadAll_err _ h8']
      exact ⟨_, rfl⟩

/-- Witness for C3: the row with infected count `abc`, after a well-formed
Tokyo row. -/
theorem C3_non_integer_field_fails_witness :
    ∃ e, (NewCalendar (init none)).Print (init none)
      [exampleHeader, exampleRow, ["2020", "3", "15", "北海道", "abc", "5", "3", "1"]]
      = .ret (none, some e) :=
  C3_non_integer_field_fails (NewCalendar (init none)) (init none)
    [exampleHeader, exampleRow, ["2020", "3", "15", "北海道", "abc", "5", "3", "1"]]
    ["2020", "3", "15", "北海道", "abc", "5", "3", "1"] 4 "abc"
    (by decide) (by decide) (by decide) (by decide)

/-- Claim C4: If any row of the input has fewer or more than 8 fields, `Print`
fails with the reader's field-count error (for the first such row) and a nil
reader: no output line is produced, however many other rows are
well-formed. -/
theorem C4_wrong_field_count_fails (c : Calendar) (g : Globals)
    (input : List (List String)) (row : List String)
    (hrow : row ∈ input) (hlen : row.length ≠ 8) :
    c.Print g input = .ret (none, some (.csv
      { Record := input.findIdx (fun x => decide (x.length ≠ 8)), Err := .ErrFieldCount })) := by
  simp only [Calendar.Print, ReadAll_err _ ⟨row, hrow, hlen⟩]

/-- Witness for C4: a seven-field row after a well-formed Tokyo row. -/
theorem C4_wrong_field_count_fails_witness :
    (NewCalendar (init none)).Print (init none)
      [exampleHeader, exampleRow, ["2020", "3", "16", "東京都", "12", "5", "3"]]
      = .ret (none, some (.csv { Record := 2, Err := .ErrFieldCount })) :=
  C4_wrong_field_count_fails (NewCalendar (init none)) (init none)
    [exampleHeader, exampleRow, ["2020", "3", "16", "東京都", "12", "5", "3"]]
    ["2020", "3", "16", "東京都", "12", "5", "3"] (by decide) (by decide)

theorem wellFormedRow_set_three (record : List String) (p : String) :
    wellFormedRow (record.set 3 p) = wellFormedRow record := by
  simp [wellFormedRow, numericFields, List.getD_eq_getElem?_getD, List.getElem?_set]

/-- Claim C5: `NewRecord` returns a `Record` and no error exactly when the row
has 8 fields and each of the fields 0, 1, 2, 4, 5, 6, 7 is a base-10 integer
(what `strconv.Atoi` accepts); in every other case it returns an error and no
`Record`.  Replacing field 3 never changes whether it succeeds. -/
theorem C5_NewRecord_succeeds_iff (g : Globals) (record : List String) :
    ((∃ rec, NewRecord g record = (some rec, none))
        ↔ (record.length = 8
            ∧ ∀ i ∈ [0, 1, 2, 4, 5, 6, 7], isBase10Int (record.getD i "") = true))
      ∧ (¬ (record.length = 8
            ∧ ∀ i ∈ [0, 1, 2, 4, 5, 6, 7], isBase10Int (record.getD i "") = true)
          → ∃ err, NewRecord g record = (none, some err))
      ∧ (∀ i ∈ [0, 1, 2, 4, 5, 6, 7],
          (isBase10Int (record.getD i "") = true ↔ (Atoi (record.getD i "")).2 = none))
      ∧ (∀ p : String, (∃ rec, NewRecord g (record.set 3 p) = (some rec, none))
          ↔ (∃ rec, NewRecord g record = (some rec, none))) := by
  have key : ∀ r : List String,
      (∃ rec, NewRecord g r = (some rec, none)) ↔ wellFormedRow r = true := by
    intro r
    constructor
    · rintro ⟨rec, h⟩
      cases hw : wellFormedRow r
      · obtain ⟨e, he⟩ := NewRecord_err g r hw
        rw [he] at h; simp at h
      · rfl
    · intro hw; exact ⟨_, NewRecord_ok g r hw⟩
  have hwf : wellFormedRow record = true ↔ (record.length = 8
      ∧ ∀ i ∈ [0, 1, 2, 4, 5, 6, 7], isBase10Int (record.getD i "") = true) := by
    simp only [wellFormedRow, numericFields, Bool.and_eq_true, decide_eq_true_eq,
      List.all_eq_true]
  refine ⟨(key record).trans hwf, ?_, ?_, ?_⟩
  · intro hn
    cases hw : wellFormedRow record
    · exact NewRecord_err g record hw
    · exact absurd (hwf.1 hw) hn
  · intro i _
    exact (Atoi_none_iff _).symm
  · intro p
    rw [key, key, wellFormedRow_set_three]

theorem NewRecord_eq_recordOf (g : Globals) (r : List String) (rec : Record)
    (h : NewRecord g r = (some rec, none)) : wellFormedRow r = true ∧ rec = recordOf g r := by
  cases hw : wellFormedRow r
  · obtain ⟨e, he⟩ := NewRecord_err g r hw
    rw [he] at h; simp at h
  · rw [NewRecord_ok g r hw] at h
    simp only [Prod.mk.injEq, Option.some.injEq, and_true] at h
    exact ⟨rfl, h.symm⟩

/-- Claim C6, as stated, fails: the row
`["9223372036854775807","1","1","東京都","10","5","3","1"]` is accepted, for
its year is an `int`, but the date of the record is not 1 January of that year
at 00:00:00.  The 64-bit arithmetic of `time.Date` wraps around: the record's
date is 31 December of the year -2, at 13:26:24. -/
theorem C6_year_wraps_counterexample :
    ∃ rec, NewRecord (init none)
          ["9223372036854775807", "1", "1", "東京都", "10", "5", "3", "1"] = (some rec, none)
      ∧ rec.Date.Date = (-2, 12, 31)
      ∧ rec.Date.Clock = (13, 26, 24)
      ∧ rec.Date.String = "-0002-12-31 13:26:24 +0900 Asia/Tokyo"
      ∧ rec.Date.Date ≠ (9223372036854775807, 1, 1)
      ∧ rec.Date.Clock ≠ (0, 0, 0) :=
  ⟨recordOf (init none) ["9223372036854775807", "1", "1", "東京都", "10", "5", "3", "1"],
    by decide, by decide, by decide, by decide, by decide, by decide⟩

/-- Claim C6, amended: Whenever `NewRecord` succeeds on a row `r`, the counts
of the record are the integers written in fields 4 to 7 (what `Atoi` returns
for them), the prefecture is `PrefFromString r[3]`, and the date is
`time.Date` of the integers written in fields 0, 1, 2 at 00:00:00.0 in
`time.Local`, which `init` makes the Tokyo zone; it carries that zone and has
no nanoseconds.  When the three integers are a real calendar date (month 1 to
12, day 1 to the length of the month) of a year from 1952 to 292277026595,
that date is the calendar date written in the row, at 00:00:00 local time, and
is rendered as such. -/
theorem C6_NewRecord_fields (g : Globals) (r : List String) (rec : Record)
    (h : NewRecord g r = (some rec, none)) :
    rec.Infected = intValue (r.getD 4 "")
      ∧ rec.Hospitalized = intValue (r.getD 5 "")
      ∧ rec.Discharged = intValue (r.getD 6 "")
      ∧ rec.Dead = intValue (r.getD 7 "")
      ∧ rec.Prefecture = PrefFromString (r.getD 3 "")
      ∧ rec.Date = time.Date (intValue (r.getD 0 "")) (intValue (r.getD 1 ""))
          (intValue (r.getD 2 "")) 0 0 0 0 g.Local
      ∧ rec.Date.loc = g.Local
      ∧ rec.Date.nsec = 0
      ∧ (1952 ≤ intValue (r.getD 0 "") → intValue (r.getD 0 "") ≤ 292277026595 →
          1 ≤ intValue (r.getD 1 "") → intValue (r.getD 1 "") ≤ 12 →
          1 ≤ intValue (r.getD 2 "") →
          intValue (r.getD 2 "") ≤ time.daysIn (intValue (r.getD 1 "")) (intValue (r.getD 0 "")) →
          rec.Date.Date
              = (intValue (r.getD 0 ""), intValue (r.getD 1 ""), intValue (r.getD 2 ""))
            ∧ rec.Date.Clock = (0, 0, 0)
            ∧ ∃ zone : String, rec.Date.String
                = time.appendInt (intValue (r.getD 0 "")) 4 ++ "-"
                  ++ time.appendInt (intValue (r.getD 1 "")) 2 ++ "-"
                  ++ time.appendInt (intValue (r.getD 2 "")) 2 ++ " 00:00:00" ++ zone)
      ∧ (∀ i ∈ [0, 1, 2, 4, 5, 6, 7], (Atoi (r.getD i "")) = (intValue (r.getD i ""), none))
      ∧ (init none).Local = time.FixedZone "Asia/Tokyo" (9 * 60 * 60)
      ∧ (init (some time.AsiaTokyo)).Local = time.AsiaTokyo := by
  obtain ⟨hw, e⟩ := NewRecord_eq_recordOf g r rec h
  subst e
  have hm := Date_midnight_nsec (intValue (r.getD 0 "")) (intValue (r.getD 1 ""))
    (intValue (r.getD 2 "")) g.Local
  refine ⟨rfl, rfl, rfl, rfl, rfl, rfl, hm.2, hm.1, ?_, ?_, rfl, rfl⟩
  · intro hy hy2 hm1 hm2 hd1 hd2
    have hc := Date_civil (intValue (r.getD 0 "")) (intValue (r.getD 1 ""))
      (intValue (r.getD 2 "")) g.Local (by omega) hy2 hm1 hm2 hd1 hd2
    exact ⟨hc.1, hc.2, String_civil (intValue (r.getD 0 "")) (intValue (r.getD 1 ""))
      (intValue (r.getD 2 "")) g.Local (by omega) hy2 hm1 hm2 hd1 hd2⟩
  · intro i hi
    have hall : numericFields.all (fun i => isBase10Int (r.getD i "")) = true := by
      simp only [wellFormedRow, Bool.and_eq_true] at hw
      exact hw.2
    exact Atoi_ok _ (List.all_eq_true.mp hall i hi)

/-- Witness for C6: the example row; its date is 15 March 2020 at 00:00:00. -/
theorem C6_NewRecord_fields_witness :
    ∃ rec, NewRecord (init none) exampleRow = (some rec, none)
      ∧ rec.Infected = 10 ∧ rec.Hospitalized = 5 ∧ rec.Discharged = 3 ∧ rec.Dead = 1
      ∧ rec.Prefecture = TOKYO
      ∧ rec.Date.Date = (2020, 3, 15) ∧ rec.Date.Clock = (0, 0, 0) :=
  have h : NewRecord (init none) exampleRow = (some (recordOf (init none) exampleRow), none) := by
    decide
  have t := C6_NewRecord_fields (init none) exampleRow _ h
  have s := t.2.2.2.2.2.2.2.2.1 (by decide) (by decide) (by decide) (by decide) (by decide)
    (by decide)
  ⟨_, h, t.1.trans (by decide), t.2.1.trans (by decide), t.2.2.1.trans (by decide),
    t.2.2.2.1.trans (by decide), t.2.2.2.2.1.trans (by decide), s.1.trans (by decide), s.2.1⟩

/-- Claim C7: `PrefFromString` maps the four known names to their constants and
every other string to `UNKNOWN`; its value is always one of the five
constants, and it is `TOKYO` exactly for the string "東京都". -/
theorem C7_PrefFromString_table :
    PrefFromString "北海道" = HOKKAIDO
      ∧ PrefFromString "東京都" = TOKYO
      ∧ PrefFromString "大阪府" = OSAKA
      ∧ PrefFromString "山梨県" = YAMANASHI
      ∧ (∀ s : String, s ≠ "北海道" → s ≠ "東京都" → s ≠ "大阪府" → s ≠ "山梨県" →
          PrefFromString s = UNKNOWN)
      ∧ (∀ s : String, PrefFromString s ∈ [HOKKAIDO, TOKYO, OSAKA, YAMANASHI, UNKNOWN])
      ∧ (∀ s : String, PrefFromString s = TOKYO ↔ s = "東京都") := by
  refine ⟨by decide, by decide, by decide, by decide, ?_, ?_, PrefFromString_eq_TOKYO_iff⟩
  · intro s h1 h2 h3 h4
    simp only [PrefFromString, if_neg h1, if_neg h2, if_neg h3, if_neg h4]
  · intro s
    unfold PrefFromString
    split
    · simp
    · split
      · simp
      · split
        · simp
        · split <;> simp

/-- Witness for C7: a prefecture outside the enumeration. -/
theorem C7_PrefFromString_table_witness : PrefFromString "神奈川県" = UNKNOWN :=
  C7_PrefFromString_table.2.2.2.2.1 "神奈川県" (by decide) (by decide) (by decide) (by decide)

/-- Claim C8: In a well-formed input a data row whose prefecture field is not
"東京都" is parsed successfully and contributes nothing: `Print` gives the same
result with the row (anywhere after the header) as without it, and that result
is a success. -/
theorem C8_other_prefecture_row_is_neutral (c : Calendar) (g : Globals)
    (header : List String) (pre post : List (List String)) (row : List String)
    (hheader : header.length = 8)
    (hpre : ∀ x ∈ pre, wellFormedRow x = true)
    (hpost : ∀ x ∈ post, wellFormedRow x = true)
    (hrow : wellFormedRow row = true) (hp : row.getD 3 "" ≠ "東京都") :
    (∃ rec, NewRecord g row = (some rec, none) ∧ rec.Prefecture ≠ TOKYO)
      ∧ c.Print g (header :: (pre ++ row :: post)) = c.Print g (header :: (pre ++ post))
      ∧ c.Print g (header :: (pre ++ post))
          = .ret (some (String.join (linesOf g (pre ++ post))), none) := by
  have hall : ∀ x ∈ pre ++ post, wellFormedRow x = true := by
    intro x hx
    rcases List.mem_append.mp hx with h | h
    · exact hpre x h
    · exact hpost x h
  have hall' : ∀ x ∈ pre ++ row :: post, wellFormedRow x = true := by
    intro x hx
    rcases List.mem_append.mp hx with h | h
    · exact hpre x h
    · rcases List.mem_cons.mp h with e | h'
      · rw [e]; exact hrow
      · exact hpost x h'
  refine ⟨⟨_, NewRecord_ok g row hrow, ?_⟩, ?_, Print_ok c g header _ hheader hall⟩
  · intro e
    exact hp ((PrefFromString_eq_TOKYO_iff _).1 e)
  · rw [Print_ok c g header _ hheader hall, Print_ok c g header _ hheader hall', linesOf_append,
      linesOf_append, linesOf_cons_other g row post (decide_eq_false hp)]

/-- Witness for C8: a Yamanashi row between two Tokyo rows. -/
theorem C8_other_prefecture_row_is_neutral_witness :
    (NewCalendar (init none)).Print (init none)
        [exampleHeader, exampleRow, ["2020", "3", "15", "山梨県", "2", "1", "1", "0"],
          ["2020", "3", "16", "東京都", "12", "5", "3", "1"]]
      = (NewCalendar (init none)).Print (init none)
        [exampleHeader, exampleRow, ["2020", "3", "16", "東京都", "12", "5", "3", "1"]] :=
  (C8_other_prefecture_row_is_neutral (NewCalendar (init none)) (init none) exampleHeader
    [exampleRow] [["2020", "3", "16", "東京都", "12", "5", "3", "1"]]
    ["2020", "3", "15", "山梨県", "2", "1", "1", "0"]
    (by decide) (by decide) (by decide) (by decide) (by decide)).2.1

/-- Claim C9, as stated, fails: the row
`["2020","3","15","東京都","-10","5","3","1"]` is accepted and gives a record
whose infected count is `-10`. -/
theorem C9_negative_count_counterexample :
    ∃ rec, NewRecord (init none) ["2020", "3", "15", "東京都", "-10", "5", "3", "1"]
        = (some rec, none)
      ∧ rec.Infected = -10 ∧ ¬ (0 ≤ rec.Infected) :=
  ⟨recordOf (init none) ["2020", "3", "15", "東京都", "-10", "5", "3", "1"],
    by decide, by decide, by decide⟩

theorem intValue_sign (s : String) :
    (hasMinus s = false → 0 ≤ intValue s) ∧ (hasMinus s = true → intValue s ≤ 0) := by
  have hv := intValue_bounds s
  constructor
  · intro h; rw [hv.1 h]; omega
  · intro h; rw [hv.2 h]; omega

/-- Claim C9, amended: Every record constructed by `NewRecord` carries, as
its four counts, the signed integers written in fields 4 to 7, which are what
`strconv.Atoi` returns for them; there is no sign check, so a count is
non-negative when its field does not start with a minus sign, and zero or
negative when it does. -/
theorem C9_counts_follow_sign (g : Globals) (r : List String) (rec : Record)
    (h : NewRecord g r = (some rec, none)) :
    (rec.Infected = intValue (r.getD 4 "") ∧ Atoi (r.getD 4 "") = (rec.Infected, none)
        ∧ (hasMinus (r.getD 4 "") = false → 0 ≤ rec.Infected)
        ∧ (hasMinus (r.getD 4 "") = true → rec.Infected ≤ 0))
      ∧ (rec.Hospitalized = intValue (r.getD 5 "")
        ∧ Atoi (r.getD 5 "") = (rec.Hospitalized, none)
        ∧ (hasMinus (r.getD 5 "") = false → 0 ≤ rec.Hospitalized)
        ∧ (hasMinus (r.getD 5 "") = true → rec.Hospitalized ≤ 0))
      ∧ (rec.Discharged = intValue (r.getD 6 "")
        ∧ Atoi (r.getD 6 "") = (rec.Discharged, none)
        ∧ (hasMinus (r.getD 6 "") = false → 0 ≤ rec.Discharged)
        ∧ (hasMinus (r.getD 6 "") = true → rec.Discharged ≤ 0))
      ∧ (rec.Dead = intValue (r.getD 7 "") ∧ Atoi (r.getD 7 "") = (rec.Dead, none)
        ∧ (hasMinus (r.getD 7 "") = false → 0 ≤ rec.Dead)
        ∧ (hasMinus (r.getD 7 "") = true → rec.Dead ≤ 0)) := by
  obtain ⟨hw, e⟩ := NewRecord_eq_recordOf g r rec h
  subst e
  have hall : numericFields.all (fun i => isBase10Int (r.getD i "")) = true := by
    simp only [wellFormedRow, Bool.and_eq_true] at hw
    exact hw.2
  have ha : ∀ i ∈ numericFields, Atoi (r.getD i "") = (intValue (r.getD i ""), none) :=
    fun i hi => Atoi_ok _ (List.all_eq_true.mp hall i hi)
  exact ⟨⟨rfl, ha 4 (by decide), (intValue_sign _).1, (intValue_sign _).2⟩,
    ⟨rfl, ha 5 (by decide), (intValue_sign _).1, (intValue_sign _).2⟩,
    ⟨rfl, ha 6 (by decide), (intValue_sign _).1, (intValue_sign _).2⟩,
    ⟨rfl, ha 7 (by decide), (intValue_sign _).1, (intValue_sign _).2⟩⟩

/-- Witness for the amended C9: the counts of the example row are the
integers 10, 5, 3, 1 of its fields, and the count of a field `-10` is `-10`. -/
theorem C9_counts_follow_sign_witness :
    ((recordOf (init none) exampleRow).Infected = 10
        ∧ (recordOf (init none) exampleRow).Hospitalized = 5
        ∧ (recordOf (init none) exampleRow).Discharged = 3
        ∧ (recordOf (init none) exampleRow).Dead = 1
        ∧ 0 ≤ (recordOf (init none) exampleRow).Infected)
      ∧ (recordOf (init none) ["2020", "3", "15", "東京都", "-10", "5", "3", "1"]).Infected
          = -10 :=
  have t := C9_counts_follow_sign (init none) exampleRow (recordOf (init none) exampleRow)
    (by decide)
  have u := C9_counts_follow_sign (init none) ["2020", "3", "15", "東京都", "-10", "5", "3", "1"]
    (recordOf (init none) ["2020", "3", "15", "東京都", "-10", "5", "3", "1"]) (by decide)
  ⟨⟨t.1.1.trans (by decide), t.2.1.1.trans (by decide), t.2.2.1.1.trans (by decide),
    t.2.2.2.1.trans (by decide), t.1.2.2.1 (by decide)⟩, u.1.1.trans (by decide)⟩

/-- Claim C10, at the failing input: On the empty stream (no record at all)
`Print` does not return: dropping the header, `records[1:]`, panics. -/
theorem C10_empty_stream_panics (c : Calendar) (g : Globals) :
    c.Print g [] = .panic "runtime error: slice bounds out of range [1:0]" := by
  rfl

theorem Print_loop_returns (g : Globals) (rows : List (List String)) (sb : String) :
    (∃ out, Calendar.Print.loop g rows sb = .ret (some out, none))
      ∨ (∃ e, Calendar.Print.loop g rows sb = .ret (none, some e)) := by
  by_cases h : ∀ r ∈ rows, wellFormedRow r = true
  · exact Or.inl ⟨_, Print_loop_ok g rows sb h⟩
  · refine Or.inr (Print_loop_err g rows sb ?_)
    by_contra hc
    apply h
    intro r hr
    cases hw : wellFormedRow r
    · exact absurd ⟨r, hr, hw⟩ hc
    · rfl

/-- On every stream with at least one record — a header alone included —
`Print` returns, with exactly one of the two outcomes: the filtered output
and no error, or an error and no output. -/
theorem Print_returns_of_nonempty (c : Calendar) (g : Globals) (header : List String)
    (rows : List (List String)) :
    (∃ out, c.Print g (header :: rows) = .ret (some out, none))
      ∨ (∃ e, c.Print g (header :: rows) = .ret (none, some e)) := by
  by_cases h8 : ∀ x ∈ header :: rows, x.length = 8
  · rw [Print_cons c g header rows h8]
    exact Print_loop_returns g rows ""
  · have h8' : ∃ x ∈ header :: rows, x.length ≠ 8 := by
      by_contra hc
      apply h8
      intro x hx
      by_contra hne
      exact hc ⟨x, hx, hne⟩
    simp only [Calendar.Print, ReadAll_err _ h8']
    exact Or.inr ⟨_, rfl⟩

/-- Witness for C1: two Tokyo rows around a Yamanashi row give two lines. -/
theorem C1_print_one_line_per_tokyo_row_witness :
    (NewCalendar (init none)).Print (init none)
        [exampleHeader, exampleRow, ["2020", "3", "15", "山梨県", "2", "1", "1", "0"],
          ["2020", "3", "16", "東京都", "12", "5", "3", "1"]]
      = .ret (some (String.join [lineOf (init none) exampleRow,
          lineOf (init none) ["2020", "3", "16", "東京都", "12", "5", "3", "1"]]), none)
      ∧ (String.join [lineOf (init none) exampleRow,
          lineOf (init none) ["2020", "3", "16", "東京都", "12", "5", "3", "1"]]).data.count '\n'
        = 2 :=
  have t := C1_print_one_line_per_tokyo_row (NewCalendar (init none)) (init none) exampleHeader
    [exampleRow, ["2020", "3", "15", "山梨県", "2", "1", "1", "0"],
      ["2020", "3", "16", "東京都", "12", "5", "3", "1"]] 2
    (by decide) (by decide) (by decide) (by decide)
  ⟨t.1, t.2.2.2.2⟩

/-- Witness for C5: a row whose day field is not a number is refused. -/
theorem C5_NewRecord_succeeds_iff_witness :
    ∃ err, NewRecord (init none) ["2020", "3", "x", "東京都", "10", "5", "3", "1"]
      = (none, some err) :=
  (C5_NewRecord_succeeds_iff (init none) ["2020", "3", "x", "東京都", "10", "5", "3", "1"]).2.1
    (by decide)

/-! ## Claims C11 and C13 to C18: configuration, header, error order, dates -/

/-- Claim C11: the result of `Print` does not depend on the calendar: any two
`Calendar` values, whatever their `StartDay` and `BeginDate`, give the same
outcome (the same output, the same error or the same panic) on every input and
under every setting of the package variables. -/
theorem C11_print_ignores_calendar (c₁ c₂ : Calendar) (g : Globals)
    (r : List (List String)) : c₁.Print g r = c₂.Print g r := by
  rfl

/-- Claim C13: after `init`, `NewCalendar` returns the defaults: `StartDay` is
Monday and `BeginDate` is `time.Date(2020, March, 1, 0, 0, 0, 0, time.Local)`,
in the zone `init` installed; with the zone database's `Asia/Tokyo` and with
the fixed-zone fallback alike this is 2020-03-01 00:00:00 at +09:00, the
instant 2020-02-29T15:00:00Z. -/
theorem C13_NewCalendar_defaults :
    (∀ loaded : Option time.Location,
        (NewCalendar (init loaded)).StartDay = time.Monday
          ∧ (NewCalendar (init loaded)).BeginDate
              = time.Date 2020 time.March 1 0 0 0 0 (init loaded).Local
          ∧ (NewCalendar (init loaded)).BeginDate.loc = (init loaded).Local)
      ∧ (init none).Local = time.FixedZone TimeZoneTokyo (9 * 60 * 60)
      ∧ (init (some time.AsiaTokyo)).Local = time.AsiaTokyo
      ∧ (NewCalendar (init none)).BeginDate.String = "2020-03-01 00:00:00 +0900 Asia/Tokyo"
      ∧ (NewCalendar (init (some time.AsiaTokyo))).BeginDate.String
          = "2020-03-01 00:00:00 +0900 JST"
      ∧ (NewCalendar (init none)).BeginDate.unix = 1582988400
      ∧ (NewCalendar (init (some time.AsiaTokyo))).BeginDate.unix = 1582988400
      ∧ (NewCalendar (init none)).BeginDate.nsec = 0
      ∧ (NewCalendar (init (some time.AsiaTokyo))).BeginDate.nsec = 0 := by
  refine ⟨?_, rfl, rfl, by decide, by decide, by decide, by decide, by decide, by decide⟩
  intro loaded
  exact ⟨rfl, rfl, rfl⟩

theorem findIdx_header (h : List String) (rows : List (List String)) (hl : h.length = 8) :
    (h :: rows).findIdx (fun x => decide (x.length ≠ 8))
      = rows.findIdx (fun x => decide (x.length ≠ 8)) + 1 := by
  rw [List.findIdx_cons]
  simp [hl]

theorem exists_bad_of_not_all {rows : List (List String)}
    (h : ¬ ∀ x ∈ rows, x.length = 8) : ∃ x ∈ rows, x.length ≠ 8 := by
  by_contra hc
  apply h
  intro x hx
  by_contra hne
  exact hc ⟨x, hx, hne⟩

/-- Claim C15: a first row whose field count is not 8 makes `Print` return the
reader's field-count error for that row and a nil reader, whatever the rows
after it are. -/
theorem C15_header_field_count (c : Calendar) (g : Globals) (header : List String)
    (rows : List (List String)) (hh : header.length ≠ 8) :
    c.Print g (header :: rows)
      = .ret (none, some (.csv { Record := 0, Err := .ErrFieldCount })) := by
  have e : (header :: rows).findIdx (fun x => decide (x.length ≠ 8)) = 0 := by
    rw [List.findIdx_cons]
    simp [hh]
  simp only [Calendar.Print, ReadAll_err (header :: rows) ⟨header, List.mem_cons_self _ _, hh⟩, e]

/-- Witness for C15: a three-field header before well-formed data rows. -/
theorem C15_header_field_count_witness :
    (NewCalendar (init none)).Print (init none)
        [["年", "月", "日"], exampleRow, ["2020", "3", "16", "東京都", "12", "5", "3", "1"]]
      = .ret (none, some (.csv { Record := 0, Err := .ErrFieldCount })) :=
  C15_header_field_count (NewCalendar (init none)) (init none) ["年", "月", "日"]
    [exampleRow, ["2020", "3", "16", "東京都", "12", "5", "3", "1"]] (by decide)

/-- For an 8-field row the error of `NewRecord` is the `Atoi` error of the
first numeric field that is not a base-10 integer. -/
theorem NewRecord_first_bad (g : Globals) (record : List String) (i : Nat)
    (hl : record.length = 8) (hi : i ∈ numericFields)
    (hprev : ∀ j ∈ numericFields, j < i → isBase10Int (record.getD j "") = true)
    (hbad : isBase10Int (record.getD i "") = false) :
    ∃ (v : Int) (k : strconv.ErrKind),
      Atoi (record.getD i "") = (v, some ⟨"Atoi", record.getD i "", k⟩)
        ∧ NewRecord g record = (none, some (.num ⟨"Atoi", record.getD i "", k⟩)) := by
  have hl' : ¬ record.length ≠ CSVNumField := by simp [CSVNumField, hl]
  obtain ⟨v, k, hk⟩ := Atoi_err _ hbad
  refine ⟨v, k, hk, ?_⟩
  simp only [numericFields, List.mem_cons, List.mem_singleton, List.not_mem_nil, or_false] at hi
  have p : ∀ j, j ∈ numericFields → j < i →
      Atoi (record.getD j "") = (intValue (record.getD j ""), none) :=
    fun j hj hji => Atoi_ok _ (hprev j hj hji)
  rcases hi with e | e | e | e | e | e | e <;> subst e
  · simp only [NewRecord, if_neg hl', hk]
  · simp only [NewRecord, if_neg hl', p 0 (by decide) (by decide), hk]
  · simp only [NewRecord, if_neg hl', p 0 (by decide) (by decide), p 1 (by decide) (by decide),
      hk]
  · simp only [NewRecord, if_neg hl', p 0 (by decide) (by decide), p 1 (by decide) (by decide),
      p 2 (by decide) (by decide), hk]
  · simp only [NewRecord, if_neg hl', p 0 (by decide) (by decide), p 1 (by decide) (by decide),
      p 2 (by decide) (by decide), p 4 (by decide) (by decide), hk]
  · simp only [NewRecord, if_neg hl', p 0 (by decide) (by decide), p 1 (by decide) (by decide),
      p 2 (by decide) (by decide), p 4 (by decide) (by decide), p 5 (by decide) (by decide), hk]
  · simp only [NewRecord, if_neg hl', p 0 (by decide) (by decide), p 1 (by decide) (by decide),
      p 2 (by decide) (by decide), p 4 (by decide) (by decide), p 5 (by decide) (by decide),
      p 6 (by decide) (by decide), hk]

/-- An 8-field row that is not well-formed has a first bad numeric field. -/
theorem exists_first_bad (record : List String) (hl : record.length = 8)
    (h : wellFormedRow record = false) :
    ∃ i ∈ numericFields,
      (∀ j ∈ numericFields, j < i → isBase10Int (record.getD j "") = true)
        ∧ isBase10Int (record.getD i "") = false := by
  have hall : ∀ j ∈ numericFields, (j = 0 ∨ j = 1 ∨ j = 2 ∨ j = 4 ∨ j = 5 ∨ j = 6 ∨ j = 7) := by
    intro j hj
    simpa [numericFields] using hj
  cases h0 : isBase10Int (record.getD 0 "")
  · exact ⟨0, by decide, fun j _ hj => absurd hj (Nat.not_lt_zero _), h0⟩
  cases h1 : isBase10Int (record.getD 1 "")
  · refine ⟨1, by decide, fun j hj hlt => ?_, h1⟩
    rcases hall j hj with e | e | e | e | e | e | e <;> subst e <;> first | assumption | omega
  cases h2 : isBase10Int (record.getD 2 "")
  · refine ⟨2, by decide, fun j hj hlt => ?_, h2⟩
    rcases hall j hj with e | e | e | e | e | e | e <;> subst e <;> first | assumption | omega
  cases h4 : isBase10Int (record.getD 4 "")
  · refine ⟨4, by decide, fun j hj hlt => ?_, h4⟩
    rcases hall j hj with e | e | e | e | e | e | e <;> subst e <;> first | assumption | omega
  cases h5 : isBase10Int (record.getD 5 "")
  · refine ⟨5, by decide, fun j hj hlt => ?_, h5⟩
    rcases hall j hj with e | e | e | e | e | e | e <;> subst e <;> first | assumption | omega
  cases h6 : isBase10Int (record.getD 6 "")
  · refine ⟨6, by decide, fun j hj hlt => ?_, h6⟩
    rcases hall j hj with e | e | e | e | e | e | e <;> subst e <;> first | assumption | omega
  cases h7 : isBase10Int (record.getD 7 "")
  · refine ⟨7, by decide, fun j hj hlt => ?_, h7⟩
    rcases hall j hj with e | e | e | e | e | e | e <;> subst e <;> first | assumption | omega
  exfalso
  have : wellFormedRow record = true := (wellFormedRow_iff record).2 ⟨hl, h0, h1, h2, h4, h5, h6, h7⟩
  rw [h] at this
  exact Bool.noConfusion this

/-- The loop of `Print` stops at the first row that `NewRecord` refuses and
returns its error. -/
theorem Print_loop_first_bad (g : Globals) (pre : List (List String)) (bad : List String)
    (post : List (List String)) (hpre : ∀ x ∈ pre, wellFormedRow x = true)
    (hbad : wellFormedRow bad = false) : ∀ sb : String,
    Calendar.Print.loop g (pre ++ bad :: post) sb = .ret (none, (NewRecord g bad).2) := by
  induction pre with
  | nil =>
    intro sb
    obtain ⟨e, he⟩ := NewRecord_err g bad hbad
    simp only [List.nil_append, Calendar.Print.loop, he]
  | cons r pre ih =>
    intro sb
    have hr := hpre r (List.mem_cons_self _ _)
    have ih' := ih (fun x hx => hpre x (List.mem_cons_of_mem _ hx))
    simp only [List.cons_append, Calendar.Print.loop, NewRecord_ok g r hr]
    split
    · exact ih' _
    · exact ih' _

/-- Claim C16, as stated, fails: with a non-numeric day in the first data row
and a three-field second data row, `Print` returns the reader's field-count
error for the second data row, not the integer-parse error of the first. -/
theorem C16_first_invalid_row_counterexample :
    (NewCalendar (init none)).Print (init none)
        [exampleHeader, ["2020", "3", "x", "東京都", "10", "5", "3", "1"], ["2020", "3", "16"]]
      = .ret (none, some (.csv { Record := 2, Err := .ErrFieldCount }))
      ∧ NewRecord (init none) ["2020", "3", "x", "東京都", "10", "5", "3", "1"]
          = (none, some (.num { Func := "Atoi", Num := "x", Err := .ErrSyntax }))
      ∧ (Error.csv { Record := 2, Err := .ErrFieldCount }
          ≠ Error.num { Func := "Atoi", Num := "x", Err := .ErrSyntax }) := by
  decide

/-- Claim C16, amended: `NewRecord` checks in a fixed order and stops at the
first failure: a row whose length is not 8 yields the field-count error naming
the count and the row, whatever its contents; for an 8-field row the error is
the `Atoi` error of the lowest-indexed field among 0, 1, 2, 4, 5, 6, 7 that is
not a base-10 integer.  When every row of the input has 8 fields, `Print`
returns the error `NewRecord` gives for the first invalid data row. -/
theorem C16_error_order (c : Calendar) (g : Globals) :
    (∀ record : List String, record.length ≠ 8 →
        NewRecord g record = (none, some (.errorString
          ("Number of fields (" ++ fmt.formatInt record.length
            ++ ") in the CSV record is wrong: " ++ fmt.formatStrings record))))
      ∧ (∀ (record : List String) (i : Nat), record.length = 8 → i ∈ [0, 1, 2, 4, 5, 6, 7] →
          (∀ j ∈ [0, 1, 2, 4, 5, 6, 7], j < i → isBase10Int (record.getD j "") = true) →
          isBase10Int (record.getD i "") = false →
          ∃ (v : Int) (k : strconv.ErrKind),
            Atoi (record.getD i "") = (v, some ⟨"Atoi", record.getD i "", k⟩)
              ∧ NewRecord g record = (none, some (.num ⟨"Atoi", record.getD i "", k⟩)))
      ∧ (∀ (header : List String) (pre : List (List String)) (bad : List String)
          (post : List (List String)),
          (∀ x ∈ header :: (pre ++ bad :: post), x.length = 8) →
          (∀ x ∈ pre, wellFormedRow x = true) → wellFormedRow bad = false →
          (∃ e, NewRecord g bad = (none, some e)
            ∧ c.Print g (header :: (pre ++ bad :: post)) = .ret (none, some e))) := by
  refine ⟨?_, ?_, ?_⟩
  · intro record hl
    have hl' : record.length ≠ CSVNumField := by simpa [CSVNumField] using hl
    simp only [NewRecord, if_pos hl']
  · intro record i hl hi hprev hbad
    exact NewRecord_first_bad g record i hl hi hprev hbad
  · intro header pre bad post h8 hpre hbad
    obtain ⟨e, he⟩ := NewRecord_err g bad hbad
    refine ⟨e, he, ?_⟩
    rw [Print_cons c g header _ h8, Print_loop_first_bad g pre bad post hpre hbad, he]

/-- Witness for the amended C16: a bad month and a bad infected count in one
row give the error of the month; a two-field row gives the field-count
error. -/
theorem C16_error_order_witness :
    NewRecord (init none) ["2020", "", "15", "東京都", "abc", "5", "3", "1"]
        = (none, some (.num { Func := "Atoi", Num := "", Err := .ErrSyntax }))
      ∧ NewRecord (init none) ["x", "y"]
        = (none, some (.errorString "Number of fields (2) in the CSV record is wrong: [x y]")) :=
  have t := C16_error_order (NewCalendar (init none)) (init none)
  ⟨by
      obtain ⟨v, k, hk, hr⟩ := t.2.1 ["2020", "", "15", "東京都", "abc", "5", "3", "1"] 1
        (by decide) (by decide) (by decide) (by decide)
      rw [hr]
      have : k = .ErrSyntax := by
        have h2 : Atoi "" = (0, some ⟨"Atoi", "", .ErrSyntax⟩) := by decide
        have h3 : (v, some (NumError.mk "Atoi" "" k)) = (0, some ⟨"Atoi", "", .ErrSyntax⟩) :=
          hk.symm.trans h2
        simp only [Prod.mk.injEq, Option.some.injEq, NumError.mk.injEq, true_and] at h3
        exact h3.2
      rw [this]
      rfl,
    (t.1 ["x", "y"] (by decide)).trans (by decide)⟩

/-- Midnights that are the same instant in UTC are the same instant in every
location. -/
theorem Date_eq_of_utc (y m d y' m' d' : Int) (loc : time.Location)
    (h : time.Date y m d 0 0 0 0 ⟨"UTC", "UTC", 0⟩ = time.Date y' m' d' 0 0 0 0 ⟨"UTC", "UTC", 0⟩) :
    time.Date y m d 0 0 0 0 loc = time.Date y' m' d' 0 0 0 0 loc := by
  rw [Date_loc y m d 0 0 0 0 loc, Date_loc y' m' d' 0 0 0 0 loc, h]

theorem String_2021_01_01 (loc : time.Location) :
    ∃ zone : String, (time.Date 2020 13 1 0 0 0 0 loc).String = "2021-01-01 00:00:00" ++ zone := by
  rw [Date_eq_of_utc 2020 13 1 2021 1 1 loc (by decide)]
  obtain ⟨zone, hz⟩ := String_civil 2021 1 1 loc (by decide) (by decide) (by decide) (by decide)
    (by decide) (by decide)
  exact ⟨zone, hz.trans rfl⟩

theorem String_2020_03_01 (loc : time.Location) :
    ∃ zone : String, (time.Date 2020 2 30 0 0 0 0 loc).String = "2020-03-01 00:00:00" ++ zone := by
  rw [Date_eq_of_utc 2020 2 30 2020 3 1 loc (by decide)]
  obtain ⟨zone, hz⟩ := String_civil 2020 3 1 loc (by decide) (by decide) (by decide) (by decide)
    (by decide) (by decide)
  exact ⟨zone, hz.trans rfl⟩

theorem lineOf_eight (g : Globals) (y m d p i h s x : String) :
    lineOf g [y, m, d, p, i, h, s, x]
      = (time.Date (intValue y) (intValue m) (intValue d) 0 0 0 0 g.Local).String ++ " "
          ++ fmt.formatInt (intValue i) ++ "\n" := rfl

theorem Print_single_tokyo (c : Calendar) (g : Globals) (header row : List String)
    (hh : header.length = 8) (hw : wellFormedRow row = true) (ht : isTokyoRow row = true) :
    c.Print g [header, row] = .ret (some (lineOf g row), none) := by
  have hall : ∀ x ∈ [row], wellFormedRow x = true := by
    intro x hx
    rw [List.mem_singleton.mp hx]; exact hw
  rw [Print_ok c g header [row] hh hall, linesOf_cons_tokyo g row [] ht]
  simp [linesOf, String.join]

/-- Claim C17, as stated, fails: the row
`["9223372036854775807","2","30","東京都","10","5","3","1"]` is accepted, but
its date is not the normalised date (1 March of that year): the 64-bit
arithmetic of `time.Date` wraps around, and `Print` renders 1 March of the
year -1, at 13:26:24. -/
theorem C17_year_wraps_counterexample :
    (∃ rec, NewRecord (init none)
          ["9223372036854775807", "2", "30", "東京都", "10", "5", "3", "1"] = (some rec, none)
        ∧ rec.Date.Date = (-1, 3, 1)
        ∧ rec.Date.Clock = (13, 26, 24)
        ∧ rec.Date.Date.1 ≠ 9223372036854775807)
      ∧ (NewCalendar (init none)).Print (init none)
          [exampleHeader, ["9223372036854775807", "2", "30", "東京都", "10", "5", "3", "1"]]
        = .ret (some "-0001-03-01 13:26:24 +0900 Asia/Tokyo 10\n", none) :=
  ⟨⟨recordOf (init none) ["9223372036854775807", "2", "30", "東京都", "10", "5", "3", "1"],
    by decide, by decide, by decide, by decide⟩, by decide⟩

/-- Claim C17, amended: `NewRecord` validates no calendar range: every
8-field row whose numeric fields are base-10 integers is accepted, and its
date is `time.Date` of the three integers.  Within the range of a
`time.Time` that is the normalised date: twelve months more are a year more
(years and months up to 10^18 in size); a day more is 86400 seconds more
(years 1970 to 292277026000, months up to 100 and days up to 1000 in size, a
zone offset of at most a day); and a real calendar date of a year from 1952
to 292277026595 is kept as written, at 00:00:00.  Year 2020 month 13 day 1 is
2021-01-01, year 2020 month 2 day 30 is 2020-03-01, February 31 is March 3
(2021), day 0 of March 2020 is 29 February, month -1 day -1 of 2020 is
30 October 2019; `Print` renders the normalised date. -/
theorem C17_no_range_validation (c : Calendar) (g : Globals) (r : List String)
    (h : wellFormedRow r = true) :
    (∃ rec, NewRecord g r = (some rec, none)
        ∧ rec.Date = time.Date (intValue (r.getD 0 "")) (intValue (r.getD 1 ""))
            (intValue (r.getD 2 "")) 0 0 0 0 g.Local)
      ∧ (∀ y m d : Int, -1000000000000000000 ≤ y → y ≤ 1000000000000000000 →
          -1000000000000000000 ≤ m → m ≤ 1000000000000000000 →
          time.Date y (m + 12) d 0 0 0 0 g.Local = time.Date (y + 1) m d 0 0 0 0 g.Local)
      ∧ (∀ y m d : Int, 1970 ≤ y → y ≤ 292277026000 → -100 ≤ m → m ≤ 100 →
          -1000 ≤ d → d ≤ 1000 → -86400 ≤ g.Local.zoneOffset → g.Local.zoneOffset ≤ 86400 →
          (time.Date y m (d + 1) 0 0 0 0 g.Local).unix
            = (time.Date y m d 0 0 0 0 g.Local).unix + 86400)
      ∧ (∀ y m d : Int, 1952 ≤ y → y ≤ 292277026595 → 1 ≤ m → m ≤ 12 →
          1 ≤ d → d ≤ time.daysIn m y →
          (time.Date y m d 0 0 0 0 g.Local).Date = (y, m, d)
            ∧ (time.Date y m d 0 0 0 0 g.Local).Clock = (0, 0, 0))
      ∧ time.Date 2020 13 1 0 0 0 0 g.Local = time.Date 2021 1 1 0 0 0 0 g.Local
      ∧ time.Date 2020 2 30 0 0 0 0 g.Local = time.Date 2020 3 1 0 0 0 0 g.Local
      ∧ time.Date 2021 2 31 0 0 0 0 g.Local = time.Date 2021 3 3 0 0 0 0 g.Local
      ∧ time.Date 2020 3 0 0 0 0 0 g.Local = time.Date 2020 2 29 0 0 0 0 g.Local
      ∧ time.Date 2020 (-1) (-1) 0 0 0 0 g.Local = time.Date 2019 10 30 0 0 0 0 g.Local
      ∧ (∀ header : List String, header.length = 8 →
          ∃ zone : String,
            c.Print g [header, ["2020", "13", "1", "東京都", "10", "5", "3", "1"]]
              = .ret (some ("2021-01-01 00:00:00" ++ zone ++ " 10\n"), none))
      ∧ (∀ header : List String, header.length = 8 →
          ∃ zone : String,
            c.Print g [header, ["2020", "2", "30", "東京都", "10", "5", "3", "1"]]
              = .ret (some ("2020-03-01 00:00:00" ++ zone ++ " 10\n"), none)) := by
  refine ⟨⟨_, NewRecord_ok g r h, rfl⟩,
    fun y m d h1 h2 h3 h4 => Date_month_overflow y m d 0 0 0 0 g.Local h1 h2 h3 h4,
    fun y m d h1 h2 h3 h4 h5 h6 h7 h8 => Date_day_linear y m d g.Local h1 h2 h3 h4 h5 h6 h7 h8,
    fun y m d h1 h2 h3 h4 h5 h6 => Date_civil y m d g.Local (by omega) h2 h3 h4 h5 h6,
    Date_eq_of_utc _ _ _ _ _ _ _ (by decide), Date_eq_of_utc _ _ _ _ _ _ _ (by decide),
    Date_eq_of_utc _ _ _ _ _ _ _ (by decide), Date_eq_of_utc _ _ _ _ _ _ _ (by decide),
    Date_eq_of_utc _ _ _ _ _ _ _ (by decide), ?_, ?_⟩
  · intro header hh
    obtain ⟨zone, hz⟩ := String_2021_01_01 g.Local
    refine ⟨zone, ?_⟩
    rw [Print_single_tokyo c g header _ hh (by decide) (by decide), lineOf_eight]
    have i0 : intValue "2020" = 2020 := by decide
    have i1 : intValue "13" = 13 := by decide
    have i2 : intValue "1" = 1 := by decide
    have i4 : fmt.formatInt (intValue "10") = "10" := by decide
    rw [i0, i1, i2, i4, hz, String.append_assoc, String.append_assoc, String.append_assoc]
    rfl
  · intro header hh
    obtain ⟨zone, hz⟩ := String_2020_03_01 g.Local
    refine ⟨zone, ?_⟩
    rw [Print_single_tokyo c g header _ hh (by decide) (by decide), lineOf_eight]
    have i0 : intValue "2020" = 2020 := by decide
    have i1 : intValue "2" = 2 := by decide
    have i2 : intValue "30" = 30 := by decide
    have i4 : fmt.formatInt (intValue "10") = "10" := by decide
    rw [i0, i1, i2, i4, hz, String.append_assoc, String.append_assoc, String.append_assoc]
    rfl

/-- Witness for the amended C17: month 13 and day 0 with a negative count are
accepted, day 0 of month 13 of 2020 is the day before day 1, and month 13 of
2020 is printed as January 2021. -/
theorem C17_no_range_validation_witness :
    (∃ rec, NewRecord (init none) ["2020", "13", "0", "東京都", "-1", "5", "3", "1"]
        = (some rec, none)
        ∧ rec.Date = time.Date 2020 13 0 0 0 0 0 (init none).Local)
      ∧ (time.Date 2020 13 1 0 0 0 0 (init none).Local).unix
          = (time.Date 2020 13 0 0 0 0 0 (init none).Local).unix + 86400
      ∧ (NewCalendar (init none)).Print (init none)
          [exampleHeader, ["2020", "13", "1", "東京都", "10", "5", "3", "1"]]
        = .ret (some "2021-01-01 00:00:00 +0900 Asia/Tokyo 10\n", none) :=
  have t := C17_no_range_validation (NewCalendar (init none)) (init none)
    ["2020", "13", "0", "東京都", "-1", "5", "3", "1"] (by decide)
  ⟨t.1, t.2.2.1 2020 13 0 (by decide) (by decide) (by decide) (by decide) (by decide)
    (by decide) (by decide) (by decide), by decide⟩

theorem ReadAll_success (r records : List (List String))
    (hread : (newCSVReader r).ReadAll = (records, none)) :
    records = r ∧ ∀ x ∈ r, x.length = 8 := by
  by_cases h8 : ∀ x ∈ r, x.length = 8
  · rw [ReadAll_ok r h8] at hread
    simp only [Prod.mk.injEq, and_true] at hread
    exact ⟨hread.symm, h8⟩
  · rw [ReadAll_err r (exists_bad_of_not_all h8)] at hread
    simp at hread

theorem NewRecord_err_is_num (g : Globals) (record : List String) (e : Error)
    (hl : record.length = 8) (h : NewRecord g record = (none, some e)) :
    ∃ nerr : NumError, e = .num nerr ∧ nerr.Func = "Atoi" := by
  cases hw : wellFormedRow record
  · obtain ⟨i, hi, hprev, hbad⟩ := exists_first_bad record hl hw
    obtain ⟨v, k, _, hr⟩ := NewRecord_first_bad g record i hl hi hprev hbad
    rw [hr] at h
    simp only [Prod.mk.injEq, Option.some.injEq, true_and] at h
    exact ⟨_, h.symm, rfl⟩
  · rw [NewRecord_ok g record hw] at h
    simp at h

theorem Print_loop_err_is_num (g : Globals) (rows : List (List String))
    (h8 : ∀ x ∈ rows, x.length = 8) : ∀ (sb : String) (e : Error),
    Calendar.Print.loop g rows sb = .ret (none, some e) →
    ∃ nerr : NumError, e = .num nerr ∧ nerr.Func = "Atoi" := by
  induction rows with
  | nil => intro sb e h; simp [Calendar.Print.loop] at h
  | cons r rows ih =>
    intro sb e h
    have ih' := ih (fun x hx => h8 x (List.mem_cons_of_mem _ hx))
    have hl := h8 r (List.mem_cons_self _ _)
    cases hw : wellFormedRow r
    · obtain ⟨e', he'⟩ := NewRecord_err g r hw
      simp only [Calendar.Print.loop, he', Run.ret.injEq, Prod.mk.injEq, Option.some.injEq,
        true_and] at h
      rw [← h]
      exact NewRecord_err_is_num g r e' hl he'
    · simp only [Calendar.Print.loop, NewRecord_ok g r hw] at h
      split at h
      · exact ih' _ e h
      · exact ih' _ e h

/-- Claim C18: when the read succeeds, every row `Print` hands to `NewRecord`
has exactly 8 fields; so `NewRecord` never takes its field-count branch there,
and every error `Print` returns is an integer-parse error of `Atoi`. -/
theorem C18_field_count_branch_unreachable (c : Calendar) (g : Globals)
    (r records : List (List String))
    (hread : (newCSVReader r).ReadAll = (records, none)) :
    records = r
      ∧ (∀ x ∈ records, x.length = 8)
      ∧ (∀ x ∈ records.tail, ∀ msg : String, NewRecord g x ≠ (none, some (.errorString msg)))
      ∧ (∀ e : Error, c.Print g r = .ret (none, some e) →
          ∃ nerr : NumError, e = .num nerr ∧ nerr.Func = "Atoi") := by
  obtain ⟨hrec, h8⟩ := ReadAll_success r records hread
  subst hrec
  refine ⟨rfl, h8, ?_, ?_⟩
  · intro x hx msg hne
    obtain ⟨nerr, he, _⟩ := NewRecord_err_is_num g x _ (h8 x (List.mem_of_mem_tail hx)) hne
    exact Error.noConfusion he
  · intro e he
    cases records with
    | nil => simp [Calendar.Print, ReadAll_ok [] h8] at he
    | cons header rows =>
      rw [Print_cons c g header rows h8] at he
      exact Print_loop_err_is_num g rows (fun x hx => h8 x (List.mem_cons_of_mem _ hx)) "" e he

/-- Witness for C18: with 8 fields in every row, the error for a bad dead
count is the `Atoi` error. -/
theorem C18_field_count_branch_unreachable_witness :
    (∀ x ∈ [exampleHeader, ["2020", "3", "15", "東京都", "10", "5", "3", "?"]], x.length = 8)
      ∧ (NewCalendar (init none)).Print (init none)
          [exampleHeader, ["2020", "3", "15", "東京都", "10", "5", "3", "?"]]
        = .ret (none, some (.num { Func := "Atoi", Num := "?", Err := .ErrSyntax })) :=
  ⟨(C18_field_count_branch_unreachable (NewCalendar (init none)) (init none)
      [exampleHeader, ["2020", "3", "15", "東京都", "10", "5", "3", "?"]]
      [exampleHeader, ["2020", "3", "15", "東京都", "10", "5", "3", "?"]] (by decide)).2.1,
    by decide⟩

/-! ## The reader on texts: claims C12 and C14 -/


/-- The lexer on inputs whose records the library documents: quoted fields
with commas, line ends and doubled quotes, lazy quotes, blank lines, carriage
returns, a trailing comma, an unterminated quote, leading white space. -/
theorem csv_lex_samples :
    csv.lex false "a,b\n" = [["a", "b"]]
      ∧ csv.lex false "\"a,b\",c\n" = [["a,b", "c"]]
      ∧ csv.lex false "a \"word\",\"1\"2\",a\",\"b" = [["a \"word\"", "1\"2", "a\"", "b"]]
      ∧ csv.lex false "a\"\"b,c" = [["a\"\"b", "c"]]
      ∧ csv.lex false "a,\"quo\"\"ted\",x\n" = [["a", "quo\"ted", "x"]]
      ∧ csv.lex false "\"foo\"bar\"\r\n" = [["foo\"bar"]]
      ∧ csv.lex false "A,\"Hello\r\nHi\",B\r\n" = [["A", "Hello\nHi", "B"]]
      ∧ csv.lex false "field\r\r\n\r\r" = [["field\r"], ["\r"]]
      ∧ csv.lex false "field1,field2\r" = [["field1", "field2"]]
      ∧ csv.lex false "\n\na,b\n\nc\n" = [["a", "b"], ["c"]]
      ∧ csv.lex false "a,b,\n" = [["a", "b", ""]]
      ∧ csv.lex false "a,\"b" = [["a", "b"]]
      ∧ csv.lex false "" = []
      ∧ csv.lex true " \"a\",\" b\",c" = [["a", " b", "c"]]
      ∧ csv.lex true " a, b ,\tc\n  \n" = [["a", "b ", "c"], [""]]
      ∧ csv.lex false "2020,3,15, 東京都, 10,5,3,1\n"
          = [["2020", "3", "15", " 東京都", " 10", "5", "3", "1"]] := by
  decide


/-! ### White space at the start of a field -/

theorem normalizeLineEnds_cons (c : Char) (rest : List Char) (h : c ≠ '\r') :
    csv.normalizeLineEnds (c :: rest) = c :: csv.normalizeLineEnds rest := by
  simp only [csv.normalizeLineEnds, if_neg h]

theorem normalizeLineEnds_crlf (rest : List Char) :
    csv.normalizeLineEnds ('\r' :: '\n' :: rest) = csv.normalizeLineEnds ('\n' :: rest) := by
  rw [csv.normalizeLineEnds]
  simp

theorem normalizeLineEnds_cr (d : Char) (rest : List Char) (h : d ≠ '\n') :
    csv.normalizeLineEnds ('\r' :: d :: rest) = '\r' :: csv.normalizeLineEnds (d :: rest) := by
  rw [csv.normalizeLineEnds]
  simp [h]

theorem normalizeLineEnds_append (pre rest : List Char) (h : pre.getLast? ≠ some '\r') :
    csv.normalizeLineEnds (pre ++ rest)
      = csv.normalizeLineEnds pre ++ csv.normalizeLineEnds rest := by
  induction pre with
  | nil => rfl
  | cons c pre ih =>
    cases pre with
    | nil =>
      have hc : c ≠ '\r' := by
        intro e; apply h; rw [e]; rfl
      rw [List.cons_append, List.nil_append, normalizeLineEnds_cons c rest hc,
        normalizeLineEnds_cons c [] hc]
      rfl
    | cons d pre =>
      have h' : (d :: pre).getLast? ≠ some '\r' := by
        rw [List.getLast?_cons_cons] at h; exact h
      have ih' := ih h'
      rw [List.cons_append] at ih' ⊢
      rw [List.cons_append]
      by_cases hc : c = '\r'
      · subst hc
        by_cases hd : d = '\n'
        · subst hd
          rw [normalizeLineEnds_crlf, normalizeLineEnds_crlf]
          exact ih'
        · rw [normalizeLineEnds_cr d _ hd, normalizeLineEnds_cr d _ hd]
          rw [ih']
          rfl
      · rw [normalizeLineEnds_cons c _ hc, normalizeLineEnds_cons c _ hc]
        rw [ih']
        rfl

theorem normalizeLineEnds_ws (ws rest : List Char) (h : ∀ c ∈ ws, c ≠ '\r') :
    csv.normalizeLineEnds (ws ++ rest) = ws ++ csv.normalizeLineEnds rest := by
  induction ws with
  | nil => rfl
  | cons c ws ih =>
    have hc : c ≠ '\r' := h c (List.mem_cons_self _ _)
    rw [List.cons_append, normalizeLineEnds_cons c _ hc,
      ih (fun x hx => h x (List.mem_cons_of_mem _ hx))]
    rfl

/-- After the characters `pre` the reader is in the state `csv.lexState` gives,
whatever follows. -/
theorem lexLoop_append (t : Bool) (pre : List Char) :
    ∀ (s : csv.LexState) (line start : Nat) (buf : List Char) (fields : List String)
      (records : List (Nat × List String)),
    ∃ (line' start' : Nat) (buf' : List Char) (fields' : List String)
      (records' : List (Nat × List String)),
      ∀ rest : List Char, csv.lexLoop t (pre ++ rest) s line start buf fields records
        = csv.lexLoop t rest (csv.lexState t pre s) line' start' buf' fields' records' := by
  induction pre with
  | nil => intro s line start buf fields records; exact ⟨line, start, buf, fields, records, fun _ => rfl⟩
  | cons c pre ih =>
    intro s line start buf fields records
    cases s with
    | fieldStart b =>
      simp only [List.cons_append, csv.lexLoop, csv.lexState]
      split_ifs <;> exact ih _ _ _ _ _ _
    | unquoted =>
      simp only [List.cons_append, csv.lexLoop, csv.lexState]
      split_ifs <;> exact ih _ _ _ _ _ _
    | quoted =>
      simp only [List.cons_append, csv.lexLoop, csv.lexState]
      split_ifs <;> exact ih _ _ _ _ _ _
    | quoteSeen =>
      simp only [List.cons_append, csv.lexLoop, csv.lexState]
      split_ifs <;> exact ih _ _ _ _ _ _

/-- At the start of a field of a record the reader does not look at what it
has in `buf`, nor at whether the record has begun. -/
theorem lexLoop_fieldStart (t b : Bool) (rest buf : List Char) (line start : Nat)
    (fields : List String) (records : List (Nat × List String))
    (h : b = true ∨ ∃ ch r, rest = ch :: r ∧ ch ≠ '\n') :
    csv.lexLoop t rest (.fieldStart b) line start buf fields records
      = csv.lexLoop t rest (.fieldStart true) line start [] fields records := by
  cases rest with
  | nil =>
    rcases h with h | ⟨ch, r, e, _⟩
    · subst h; simp only [csv.lexLoop]
    · cases e
  | cons c rest =>
    by_cases hn : c = '\n'
    · rcases h with h | ⟨ch, r, e, hne⟩
      · subst h; simp only [csv.lexLoop]
      · simp only [List.cons.injEq] at e
        exact absurd (e.1 ▸ hn) hne
    · simp only [csv.lexLoop, if_neg hn]

/-- White space at the start of a field is skipped. -/
theorem lexLoop_skip_space (ws : List Char)
    (hws : ∀ c ∈ ws, unicode.IsSpace c = true ∧ c ≠ '\n') (hne : ws ≠ []) :
    ∀ (b : Bool) (rest buf : List Char) (line start : Nat) (fields : List String)
      (records : List (Nat × List String)),
    csv.lexLoop true (ws ++ rest) (.fieldStart b) line start buf fields records
      = csv.lexLoop true rest (.fieldStart true) line start [] fields records := by
  induction ws with
  | nil => exact absurd rfl hne
  | cons c ws ih =>
    intro b rest buf line start fields records
    obtain ⟨hs, hn⟩ := hws c (List.mem_cons_self _ _)
    rw [List.cons_append]
    simp only [csv.lexLoop, if_neg hn, hs, Bool.and_self, if_true]
    by_cases hw : ws = []
    · subst hw; rfl
    · exact ih (fun x hx => hws x (List.mem_cons_of_mem _ hx)) hw true rest [] line start fields
        records

/-- White space put at the start of a field of a record changes no record and
no line number. -/
theorem lexLines_insert_space (pre ws post : List Char) (b : Bool)
    (hws : ∀ ch ∈ ws, unicode.IsSpace ch = true ∧ ch ≠ '\n' ∧ ch ≠ '\r')
    (hpre : pre.getLast? ≠ some '\r')
    (hstate : csv.lexState true (csv.normalizeLineEnds pre) (.fieldStart false) = .fieldStart b)
    (hrow : b = true ∨ ∃ ch r, csv.normalizeLineEnds post = ch :: r ∧ ch ≠ '\n') :
    csv.lexLines true (String.mk (pre ++ ws ++ post))
      = csv.lexLines true (String.mk (pre ++ post)) := by
  obtain ⟨line, start, buf, fields, records, h⟩ :=
    lexLoop_append true (csv.normalizeLineEnds pre) (.fieldStart false) 1 1 [] [] []
  simp only [csv.lexLines]
  rw [List.append_assoc, normalizeLineEnds_append pre _ hpre,
    normalizeLineEnds_ws ws post (fun x hx => (hws x hx).2.2),
    normalizeLineEnds_append pre post hpre, h, h, hstate]
  by_cases hw : ws = []
  · subst hw; rfl
  · rw [lexLoop_skip_space ws (fun x hx => ⟨(hws x hx).1, (hws x hx).2.1⟩) hw,
      lexLoop_fieldStart true b _ buf line start fields records hrow]

/-! ### `Print` on the text of the stream -/

theorem ReadAllText_loop_ok (recs : List (Nat × List String)) :
    ∀ acc : List (List String), (∀ x ∈ recs, x.2.length = 8) →
      csv.Reader.ReadAllText.loop 8 recs acc = (acc ++ recs.map Prod.snd, none) := by
  induction recs with
  | nil => intro acc _; simp [csv.Reader.ReadAllText.loop]
  | cons x recs ih =>
    intro acc h
    obtain ⟨l, r⟩ := x
    have hx : r.length = 8 := h (l, r) (List.mem_cons_self _ _)
    have h8 : ¬ ((r.length : Int) ≠ 8) := by omega
    have hp : (8 : Int) > 0 := by decide
    simp only [csv.Reader.ReadAllText.loop, if_pos hp, if_neg h8]
    rw [ih _ (fun y hy => h y (List.mem_cons_of_mem _ hy))]
    simp

theorem ReadAllText_loop_err (recs : List (Nat × List String)) :
    ∀ (acc : List (List String)) (bad : Nat × List String),
      recs.find? (fun x => decide (x.2.length ≠ 8)) = some bad →
      csv.Reader.ReadAllText.loop 8 recs acc
        = ([], some (.csvAt ⟨bad.1, bad.1, 1, .ErrFieldCount⟩)) := by
  induction recs with
  | nil => intro acc bad h; simp at h
  | cons x recs ih =>
    intro acc bad h
    obtain ⟨l, r⟩ := x
    have hp : (8 : Int) > 0 := by decide
    by_cases hx : r.length = 8
    · have h8 : ¬ ((r.length : Int) ≠ 8) := by omega
      simp only [csv.Reader.ReadAllText.loop, if_pos hp, if_neg h8]
      apply ih
      rw [List.find?_cons] at h
      simpa [hx] using h
    · have h8 : (r.length : Int) ≠ 8 := by omega
      rw [List.find?_cons] at h
      simp only [ne_eq, hx, not_false_eq_true, decide_True, Option.some.injEq] at h
      subst h
      simp only [csv.Reader.ReadAllText.loop, if_pos hp, if_pos h8]

theorem find_bad_of_exists (recs : List (Nat × List String))
    (h : ∃ x ∈ recs, x.2.length ≠ 8) :
    ∃ bad, recs.find? (fun x => decide (x.2.length ≠ 8)) = some bad := by
  cases hf : recs.find? (fun x => decide (x.2.length ≠ 8)) with
  | some bad => exact ⟨bad, rfl⟩
  | none =>
    obtain ⟨x, hx, hne⟩ := h
    have := List.find?_eq_none.mp hf x hx
    simp at this
    exact absurd this hne

/-- The text enters `PrintText` through the records the lexer cuts it into, and
their lines. -/
theorem PrintText_congr (c : Calendar) (g : Globals) (t₁ t₂ : String)
    (h : csv.lexLines true t₁ = csv.lexLines true t₂) :
    c.PrintText g t₁ = c.PrintText g t₂ := by
  simp only [Calendar.PrintText, csv.Reader.ReadAllText, newCSVReader, csv.NewReader, h]

/-- When every record of the text has 8 fields, `Print` on the text is `Print`
on its records. -/
theorem PrintText_ok (c : Calendar) (g : Globals) (t : String)
    (h : ∀ x ∈ csv.lex true t, x.length = 8) :
    c.PrintText g t = c.Print g (csv.lex true t) := by
  have h' : ∀ x ∈ csv.lexLines true t, x.2.length = 8 := by
    intro x hx
    exact h x.2 (List.mem_map_of_mem _ hx)
  have e : (newCSVReader t).ReadAllText = (csv.lex true t, none) := by
    have := ReadAllText_loop_ok (csv.lexLines true t) [] h'
    simpa [csv.Reader.ReadAllText, newCSVReader, csv.NewReader, CSVNumField, csv.lex] using this
  simp only [Calendar.PrintText, Calendar.Print, e, ReadAll_ok _ h]

/-- When a record of the text has not 8 fields, `Print` on the text returns the
field-count error for the line on which the first such record starts. -/
theorem PrintText_err (c : Calendar) (g : Globals) (t : String) (bad : Nat × List String)
    (h : (csv.lexLines true t).find? (fun x => decide (x.2.length ≠ 8)) = some bad) :
    c.PrintText g t = .ret (none, some (.csvAt ⟨bad.1, bad.1, 1, .ErrFieldCount⟩)) := by
  have e : (newCSVReader t).ReadAllText = ([], some (.csvAt ⟨bad.1, bad.1, 1, .ErrFieldCount⟩)) := by
    have := ReadAllText_loop_err (csv.lexLines true t) [] bad h
    simpa [csv.Reader.ReadAllText, newCSVReader, csv.NewReader, CSVNumField] using this
  simp only [Calendar.PrintText, e]


/-- Records the lexer yields, with their lines: empty lines are passed over
but counted, and a quoted field may run over several lines. -/
theorem csv_lexLines_samples :
    csv.lexLines false "a,b\n\n\nc\n" = [(1, ["a", "b"]), (4, ["c"])]
      ∧ csv.lexLines false "\"x\ny\",b\nc\n" = [(1, ["x\ny", "b"]), (3, ["c"])]
      ∧ csv.lexLines true "\r\n a\r\n\"b\r\n\r\nc\",d\r\ne"
          = [(2, ["a"]), (3, ["b\n\nc", "d"]), (6, ["e"])]
      ∧ csv.lexLines true "a\n  \nb" = [(1, ["a"]), (2, [""]), (3, ["b"])] := by
  decide

/-- On a stream of records the contents of an 8-field first row do not
matter. -/
theorem Print_header (c : Calendar) (g : Globals) (h₁ h₂ : List String)
    (rows : List (List String)) (hl₁ : h₁.length = 8) (hl₂ : h₂.length = 8) :
    c.Print g (h₁ :: rows) = c.Print g (h₂ :: rows) := by
  by_cases h8 : ∀ x ∈ rows, x.length = 8
  · have a₁ : ∀ x ∈ h₁ :: rows, x.length = 8 := by
      intro x hx
      rcases List.mem_cons.mp hx with e | hx'
      · rw [e]; exact hl₁
      · exact h8 x hx'
    have a₂ : ∀ x ∈ h₂ :: rows, x.length = 8 := by
      intro x hx
      rcases List.mem_cons.mp hx with e | hx'
      · rw [e]; exact hl₂
      · exact h8 x hx'
    rw [Print_cons c g h₁ rows a₁, Print_cons c g h₂ rows a₂]
  · obtain ⟨x, hx, hne⟩ := exists_bad_of_not_all h8
    simp only [Calendar.Print,
      ReadAll_err (h₁ :: rows) ⟨x, List.mem_cons_of_mem _ hx, hne⟩,
      ReadAll_err (h₂ :: rows) ⟨x, List.mem_cons_of_mem _ hx, hne⟩,
      findIdx_header h₁ rows hl₁, findIdx_header h₂ rows hl₂]

/-- On a text whose first record has 8 fields, `Print` returns the loop over
the other records when they all have 8 fields, and otherwise the field-count
error for the line of the first of them that has not. -/
theorem PrintText_header (c : Calendar) (g : Globals) (t : String) (l : Nat)
    (header : List String) (recs : List (Nat × List String)) (hl : header.length = 8)
    (ht : csv.lexLines true t = (l, header) :: recs) :
    ((∀ x ∈ recs, x.2.length = 8) →
        c.PrintText g t = Calendar.Print.loop g (recs.map Prod.snd) "")
      ∧ (∀ bad, recs.find? (fun x => decide (x.2.length ≠ 8)) = some bad →
        c.PrintText g t
          = .ret (none, some (.csvAt ⟨bad.1, bad.1, 1, .ErrFieldCount⟩))) := by
  have hlex : csv.lex true t = header :: recs.map Prod.snd := by
    simp only [csv.lex, ht, List.map_cons]
  constructor
  · intro h8
    have a : ∀ x ∈ csv.lex true t, x.length = 8 := by
      rw [hlex]
      intro x hx
      rcases List.mem_cons.mp hx with e | hx'
      · rw [e]; exact hl
      · obtain ⟨y, hy, e⟩ := List.mem_map.mp hx'
        rw [← e]; exact h8 y hy
    rw [PrintText_ok c g t a, hlex]
    exact Print_cons c g header _ (hlex ▸ a)
  · intro bad hb
    apply PrintText_err
    rw [ht, List.find?_cons]
    simp only [ne_eq, hl, not_true_eq_false, decide_False]
    exact hb


/-- The example row after any 8-field header is printed as one line. -/
theorem Print_exampleRow (c : Calendar) (g : Globals) (header : List String)
    (hh : header.length = 8) :
    ∃ zone : String, c.Print g [header, exampleRow]
      = .ret (some ("2020-03-15 00:00:00" ++ zone ++ " 10\n"), none) := by
  obtain ⟨zone, hz⟩ := String_2020_03_15 g.Local
  refine ⟨zone, ?_⟩
  rw [Print_single_tokyo c g header _ hh (by decide) (by decide), exampleRow, lineOf_eight]
  have i0 : intValue "2020" = 2020 := by decide
  have i1 : intValue "3" = 3 := by decide
  have i2 : intValue "15" = 15 := by decide
  have i4 : fmt.formatInt (intValue "10") = "10" := by decide
  rw [i0, i1, i2, i4, hz, String.append_assoc, String.append_assoc, String.append_assoc]
  rfl


/-- Claim C12: the reader made by `newCSVReader` has `TrimLeadingSpace` set, so
white space at the start of a field is skipped before the field is read.  For
every text, white space `ws` (any characters of `unicode.IsSpace` but line
ends) put where a field of a record starts, that is where the reader is at the
start of a field after the text `pre` before it, be it after a comma or at the
start of a line that is not empty, changes neither the records the reader
yields, nor their lines, nor the result of `Print`.  The row
` 2020,3,15, 東京都, 10,5,3,1` is read as the example row and printed as a
Tokyo row; a reader without the setting keeps the spaces, and the row is then
not a Tokyo row. -/
theorem C12_leading_space_is_trimmed (c : Calendar) (g : Globals) (pre ws post : List Char)
    (b : Bool)
    (hws : ∀ ch ∈ ws, unicode.IsSpace ch = true ∧ ch ≠ '\n' ∧ ch ≠ '\r')
    (hpre : pre.getLast? ≠ some '\r')
    (hstate : csv.lexState true (csv.normalizeLineEnds pre) (.fieldStart false) = .fieldStart b)
    (hrow : b = true ∨ ∃ ch r, csv.normalizeLineEnds post = ch :: r ∧ ch ≠ '\n') :
    ((newCSVReader (String.mk (pre ++ ws ++ post))).TrimLeadingSpace = true
        ∧ (newCSVReader (String.mk (pre ++ ws ++ post))).LazyQuotes = true)
      ∧ csv.lexLines true (String.mk (pre ++ ws ++ post))
          = csv.lexLines true (String.mk (pre ++ post))
      ∧ csv.lex true (String.mk (pre ++ ws ++ post)) = csv.lex true (String.mk (pre ++ post))
      ∧ c.PrintText g (String.mk (pre ++ ws ++ post)) = c.PrintText g (String.mk (pre ++ post))
      ∧ c.Print g (csv.lex true (String.mk (pre ++ ws ++ post)))
          = c.Print g (csv.lex true (String.mk (pre ++ post)))
      ∧ csv.lex true " 2020,3,15, 東京都, 10,5,3,1\n" = [exampleRow]
      ∧ (∃ zone : String, c.PrintText g
            "年,月,日,都道府県,患者数,入院中,退院者,死亡者\n 2020,3,15, 東京都, 10,5,3,1\n"
          = .ret (some ("2020-03-15 00:00:00" ++ zone ++ " 10\n"), none))
      ∧ csv.lex false "2020,3,15, 東京都,10,5,3,1\n"
          = [["2020", "3", "15", " 東京都", "10", "5", "3", "1"]]
      ∧ c.Print g [exampleHeader, ["2020", "3", "15", " 東京都", "10", "5", "3", "1"]]
          = .ret (some "", none) := by
  have hl := lexLines_insert_space pre ws post b hws hpre hstate hrow
  have hx : csv.lex true (String.mk (pre ++ ws ++ post))
      = csv.lex true (String.mk (pre ++ post)) := by
    simp only [csv.lex, hl]
  refine ⟨⟨rfl, rfl⟩, hl, hx, PrintText_congr c g _ _ hl, by rw [hx], by decide, ?_, by decide,
    ?_⟩
  · have e : csv.lex true
        "年,月,日,都道府県,患者数,入院中,退院者,死亡者\n 2020,3,15, 東京都, 10,5,3,1\n"
        = [exampleHeader, exampleRow] := by decide
    rw [PrintText_ok c g _ (by rw [e]; decide), e]
    exact Print_exampleRow c g exampleHeader (by decide)
  · rw [Print_ok c g exampleHeader _ (by decide) (by decide)]
    rfl

/-- Witness for C12: a space, a tab and an ideographic space before the
prefecture of a Tokyo row, after a header; the text is read and printed as
without them. -/
theorem C12_leading_space_is_trimmed_witness :
    (NewCalendar (init none)).PrintText (init none)
        "年,月,日,都道府県,患者数,入院中,退院者,死亡者\n2020,3,15, \t\u3000東京都,10,5,3,1\n"
      = .ret (some "2020-03-15 00:00:00 +0900 Asia/Tokyo 10\n", none) :=
  ((C12_leading_space_is_trimmed (NewCalendar (init none)) (init none)
    "年,月,日,都道府県,患者数,入院中,退院者,死亡者\n2020,3,15,".data [' ', '\t', '\u3000']
    "東京都,10,5,3,1\n".data true (by decide) (by decide) (by decide)
    (Or.inl rfl)).2.2.2.1).trans (by decide)

/-- Claim C14, as stated, fails: two texts whose first rows have 8 fields each
and whose other rows are the same, a row of 3 fields.  The header of the
second text has a quoted field that holds a line break, so the row after it
starts on line 3, not on line 2, and the reader's error, which names the line,
is not the same. -/
theorem C14_header_line_break_counterexample :
    csv.lex true "年,月,日,都道府県,患者数,入院中,退院者,死亡者\n2020,3,16\n"
        = [exampleHeader, ["2020", "3", "16"]]
      ∧ csv.lex true "\"年\n(year)\",月,日,都道府県,患者数,入院中,退院者,死亡者\n2020,3,16\n"
        = [["年\n(year)", "月", "日", "都道府県", "患者数", "入院中", "退院者", "死亡者"],
            ["2020", "3", "16"]]
      ∧ (NewCalendar (init none)).PrintText (init none)
          "年,月,日,都道府県,患者数,入院中,退院者,死亡者\n2020,3,16\n"
        = .ret (none, some (.csvAt ⟨2, 2, 1, .ErrFieldCount⟩))
      ∧ (NewCalendar (init none)).PrintText (init none)
          "\"年\n(year)\",月,日,都道府県,患者数,入院中,退院者,死亡者\n2020,3,16\n"
        = .ret (none, some (.csvAt ⟨3, 3, 1, .ErrFieldCount⟩))
      ∧ (NewCalendar (init none)).PrintText (init none)
          "年,月,日,都道府県,患者数,入院中,退院者,死亡者\n2020,3,16\n"
        ≠ (NewCalendar (init none)).PrintText (init none)
          "\"年\n(year)\",月,日,都道府県,患者数,入院中,退院者,死亡者\n2020,3,16\n" := by
  decide

/-- Claim C14, amended: the first row is only counted, never converted, and
what its 8 fields hold matters only through the lines it takes.  On streams
of records, where an error names the record by its index, two inputs that
differ only in the contents of an 8-field first row give the same result, and
when every row has 8 fields the result is that of the loop over the rows after
the first.  On texts with the same rows after an 8-field first row the result
is the same when every row has 8 fields, and also when the rows after the
first start on the same lines; in any case the two results are equal or are
both the reader's field-count error, for the same row on its line in either
text.  A first row that is a valid Tokyo data row prints nothing, and a
header of non-numeric fields raises no error. -/
theorem C14_header_is_skipped (c : Calendar) (g : Globals) (h₁ h₂ : List String)
    (rows : List (List String)) (hl₁ : h₁.length = 8) (hl₂ : h₂.length = 8) :
    c.Print g (h₁ :: rows) = c.Print g (h₂ :: rows)
      ∧ ((∀ x ∈ rows, x.length = 8) → c.Print g (h₁ :: rows) = Calendar.Print.loop g rows "")
      ∧ (∀ t₁ t₂ : String, csv.lex true t₁ = h₁ :: rows → csv.lex true t₂ = h₂ :: rows →
          (∀ x ∈ rows, x.length = 8) →
          c.PrintText g t₁ = c.PrintText g t₂
            ∧ c.PrintText g t₁ = Calendar.Print.loop g rows "")
      ∧ (∀ (t₁ t₂ : String) (l₁ l₂ : Nat) (recs : List (Nat × List String)),
          csv.lexLines true t₁ = (l₁, h₁) :: recs → csv.lexLines true t₂ = (l₂, h₂) :: recs →
          c.PrintText g t₁ = c.PrintText g t₂)
      ∧ (∀ t₁ t₂ : String, csv.lex true t₁ = h₁ :: rows → csv.lex true t₂ = h₂ :: rows →
          c.PrintText g t₁ = c.PrintText g t₂
            ∨ ∃ (n₁ n₂ : Nat) (bad : List String),
              rows.find? (fun x => decide (x.length ≠ 8)) = some bad
              ∧ (csv.lexLines true t₁).find? (fun x => decide (x.2.length ≠ 8)) = some (n₁, bad)
              ∧ (csv.lexLines true t₂).find? (fun x => decide (x.2.length ≠ 8)) = some (n₂, bad)
              ∧ c.PrintText g t₁ = .ret (none, some (.csvAt ⟨n₁, n₁, 1, .ErrFieldCount⟩))
              ∧ c.PrintText g t₂ = .ret (none, some (.csvAt ⟨n₂, n₂, 1, .ErrFieldCount⟩)))
      ∧ c.Print g [exampleRow] = .ret (some "", none)
      ∧ c.Print g [exampleHeader] = .ret (some "", none) := by
  have split : ∀ (t : String) (h : List String), csv.lex true t = h :: rows →
      ∃ l recs, csv.lexLines true t = (l, h) :: recs ∧ recs.map Prod.snd = rows := by
    intro t h ht
    simp only [csv.lex] at ht
    cases hx : csv.lexLines true t with
    | nil => rw [hx] at ht; cases ht
    | cons x recs =>
      rw [hx, List.map_cons, List.cons.injEq] at ht
      exact ⟨x.1, recs, by rw [← ht.1], ht.2⟩
  have all8 : ∀ recs : List (Nat × List String), recs.map Prod.snd = rows →
      (∀ x ∈ rows, x.length = 8) → ∀ x ∈ recs, x.2.length = 8 := by
    intro recs e h8 x hx
    exact h8 x.2 (e ▸ List.mem_map_of_mem _ hx)
  have a₁ : (∀ x ∈ rows, x.length = 8) → ∀ x ∈ h₁ :: rows, x.length = 8 := by
    intro h8 x hx
    rcases List.mem_cons.mp hx with e | hx'
    · rw [e]; exact hl₁
    · exact h8 x hx'
  refine ⟨Print_header c g h₁ h₂ rows hl₁ hl₂, fun h8 => Print_cons c g h₁ rows (a₁ h8),
    ?_, ?_, ?_, by rfl, by rfl⟩
  · intro t₁ t₂ e₁ e₂ h8
    obtain ⟨l₁, recs₁, r₁, m₁⟩ := split t₁ h₁ e₁
    obtain ⟨l₂, recs₂, r₂, m₂⟩ := split t₂ h₂ e₂
    have p₁ := (PrintText_header c g t₁ l₁ h₁ recs₁ hl₁ r₁).1 (all8 recs₁ m₁ h8)
    have p₂ := (PrintText_header c g t₂ l₂ h₂ recs₂ hl₂ r₂).1 (all8 recs₂ m₂ h8)
    rw [m₁] at p₁
    rw [m₂] at p₂
    exact ⟨p₁.trans p₂.symm, p₁⟩
  · intro t₁ t₂ l₁ l₂ recs r₁ r₂
    by_cases h8 : ∀ x ∈ recs, x.2.length = 8
    · rw [(PrintText_header c g t₁ l₁ h₁ recs hl₁ r₁).1 h8,
        (PrintText_header c g t₂ l₂ h₂ recs hl₂ r₂).1 h8]
    · obtain ⟨bad, hb⟩ := find_bad_of_exists recs (by
        by_contra hc
        apply h8
        intro x hx
        by_contra hne
        exact hc ⟨x, hx, hne⟩)
      rw [(PrintText_header c g t₁ l₁ h₁ recs hl₁ r₁).2 bad hb,
        (PrintText_header c g t₂ l₂ h₂ recs hl₂ r₂).2 bad hb]
  · intro t₁ t₂ e₁ e₂
    obtain ⟨l₁, recs₁, r₁, m₁⟩ := split t₁ h₁ e₁
    obtain ⟨l₂, recs₂, r₂, m₂⟩ := split t₂ h₂ e₂
    by_cases h8 : ∀ x ∈ rows, x.length = 8
    · left
      have p₁ := (PrintText_header c g t₁ l₁ h₁ recs₁ hl₁ r₁).1 (all8 recs₁ m₁ h8)
      have p₂ := (PrintText_header c g t₂ l₂ h₂ recs₂ hl₂ r₂).1 (all8 recs₂ m₂ h8)
      rw [m₁] at p₁
      rw [m₂] at p₂
      exact p₁.trans p₂.symm
    · right
      obtain ⟨x, hx, hne⟩ := exists_bad_of_not_all h8
      have q₁ : ∃ y ∈ recs₁, y.2.length ≠ 8 := by
        rw [← m₁] at hx
        obtain ⟨y, hy, e⟩ := List.mem_map.mp hx
        exact ⟨y, hy, by rw [e]; exact hne⟩
      have q₂ : ∃ y ∈ recs₂, y.2.length ≠ 8 := by
        rw [← m₂] at hx
        obtain ⟨y, hy, e⟩ := List.mem_map.mp hx
        exact ⟨y, hy, by rw [e]; exact hne⟩
      obtain ⟨b₁, hb₁⟩ := find_bad_of_exists recs₁ q₁
      obtain ⟨b₂, hb₂⟩ := find_bad_of_exists recs₂ q₂
      have f₁ : rows.find? (fun x => decide (x.length ≠ 8)) = some b₁.2 := by
        rw [← m₁, List.find?_map]
        exact congrArg (Option.map Prod.snd) hb₁
      have f₂ : rows.find? (fun x => decide (x.length ≠ 8)) = some b₂.2 := by
        rw [← m₂, List.find?_map]
        exact congrArg (Option.map Prod.snd) hb₂
      have e₁₂ : b₂.2 = b₁.2 := by
        rw [f₁] at f₂
        exact (Option.some.inj f₂).symm
      have g₁ : (csv.lexLines true t₁).find? (fun x => decide (x.2.length ≠ 8))
          = some (b₁.1, b₁.2) := by
        rw [r₁, List.find?_cons]
        simp only [ne_eq, hl₁, not_true_eq_false, decide_False]
        exact hb₁
      have g₂ : (csv.lexLines true t₂).find? (fun x => decide (x.2.length ≠ 8))
          = some (b₂.1, b₁.2) := by
        rw [r₂, List.find?_cons, ← e₁₂]
        simp only [ne_eq, hl₂, not_true_eq_false, decide_False]
        exact hb₂
      exact ⟨b₁.1, b₂.1, b₁.2, f₁, g₁, g₂,
        (PrintText_header c g t₁ l₁ h₁ recs₁ hl₁ r₁).2 b₁ hb₁,
        (PrintText_header c g t₂ l₂ h₂ recs₂ hl₂ r₂).2 b₂ hb₂⟩

/-- Witness for the amended C14: a Tokyo data row in the place of the header
is not printed, on a stream of records and on a text alike. -/
theorem C14_header_is_skipped_witness :
    (NewCalendar (init none)).Print (init none) [exampleRow, exampleRow]
        = .ret (some "2020-03-15 00:00:00 +0900 Asia/Tokyo 10\n", none)
      ∧ (NewCalendar (init none)).PrintText (init none)
          "2020,3,15,東京都,10,5,3,1\n2020,3,15,東京都,10,5,3,1\n"
        = .ret (some "2020-03-15 00:00:00 +0900 Asia/Tokyo 10\n", none) :=
  have t := C14_header_is_skipped (NewCalendar (init none)) (init none) exampleRow exampleHeader
    [exampleRow] (by decide) (by decide)
  ⟨t.1.trans (by decide),
    ((t.2.2.1 "2020,3,15,東京都,10,5,3,1\n2020,3,15,東京都,10,5,3,1\n"
      "年,月,日,都道府県,患者数,入院中,退院者,死亡者\n2020,3,15,東京都,10,5,3,1\n"
      (by decide) (by decide) (by decide)).2).trans (by decide)⟩


end Cal
